import Mathlib

/-!
Shallow embedding of the Beats66 judgement engine (`GameEngine` in the source,
together with the game types module that supplies `HIT_WINDOWS`, `SCORE_VALUES`
and `HP_CHANGES`).  JavaScript numbers are modelled as rationals; `Math.floor`
and `Math.ceil` become `Int.floor` / `Int.ceil`; the JS `%` remainder (which
truncates towards zero) is modelled explicitly.  The transcendental pieces of
the source (`Math.atan2` and `Math.PI`, used only for spinner rotation) are
abstracted as parameters in a `MathCtx`, since no verified property depends on
their actual values.  Observer callbacks (`onFail`, `onJudgement`) are modelled
by ghost event logs on the engine state recording each invocation.
-/

/-- JS `Math.trunc` on a rational: rounding towards zero. -/
def jsTrunc (q : ℚ) : ℤ :=
  if 0 ≤ q then Int.floor q else Int.ceil q

/-- JS `%` remainder on rationals: `a - b * trunc (a / b)` (sign of the dividend). -/
def jsMod (a b : ℚ) : ℚ :=
  a - b * (jsTrunc (a / b) : ℚ)

/-- `SliderPoint` from the game types module. -/
structure SliderPoint where
  x : ℚ
  y : ℚ
deriving DecidableEq

/-- `HitCircle` from the game types module. -/
structure HitCircle where
  x : ℚ
  y : ℚ
  time : ℚ
  comboNumber : ℕ
  comboColor : ℕ
deriving DecidableEq

/-- `Slider` from the game types module (`curveType` is carried but never read
by the engine, so it is kept as a plain tag). -/
structure Slider where
  x : ℚ
  y : ℚ
  time : ℚ
  curvePoints : List SliderPoint
  slides : ℕ
  length : ℚ
  comboNumber : ℕ
  comboColor : ℕ
  duration : ℚ
  tickCount : ℚ
deriving DecidableEq

/-- `Spinner` from the game types module. -/
structure Spinner where
  x : ℚ
  y : ℚ
  time : ℚ
  endTime : ℚ
  comboNumber : ℕ
  comboColor : ℕ
deriving DecidableEq

/-- The `HitObject` tagged union. -/
inductive HitObject where
  | circle (c : HitCircle)
  | slider (s : Slider)
  | spinner (s : Spinner)
deriving DecidableEq

/-- Shared field access `obj.x`. -/
def HitObject.x : HitObject → ℚ
  | .circle c => c.x
  | .slider s => s.x
  | .spinner s => s.x

/-- Shared field access `obj.y`. -/
def HitObject.y : HitObject → ℚ
  | .circle c => c.y
  | .slider s => s.y
  | .spinner s => s.y

/-- Shared field access `obj.time`. -/
def HitObject.time : HitObject → ℚ
  | .circle c => c.time
  | .slider s => s.time
  | .spinner s => s.time

/-- A break interval of the beatmap (`{startTime, endTime}`). -/
structure BreakPeriod where
  startTime : ℚ
  endTime : ℚ
deriving DecidableEq

/-- The part of `Beatmap` the engine reads (difficulty numbers, breaks, objects). -/
structure Beatmap where
  hpDrainRate : ℚ
  circleSize : ℚ
  overallDifficulty : ℚ
  approachRate : ℚ
  sliderMultiplier : ℚ
  sliderTickRate : ℚ
  breaks : List BreakPeriod
  hitObjects : List HitObject
deriving DecidableEq

/-- `HitResult` from the game types module. -/
inductive HitResult where
  | perfect
  | great
  | good
  | miss
deriving DecidableEq

/-- `SCORE_VALUES` from the game types module. -/
def scoreValueOf : HitResult → ℕ
  | .perfect => 300
  | .great => 100
  | .good => 50
  | .miss => 0

/-- `HP_CHANGES` from the game types module. -/
def hpChangeOf : HitResult → ℚ
  | .perfect => 2
  | .great => 1
  | .good => 1/2
  | .miss => -5

/-- The engine's hit-window triple. -/
structure HitWindows where
  perfect : ℚ
  great : ℚ
  good : ℚ
deriving DecidableEq

/-- `HIT_WINDOWS` (OD 5 baseline defaults) from the game types module. -/
def defaultHitWindows : HitWindows :=
  { perfect := 50, great := 100, good := 150 }

/-- `GameState` from the game types module. -/
structure GameState where
  score : ℤ
  combo : ℕ
  maxCombo : ℕ
  accuracy : ℚ
  hp : ℚ
  perfectCount : ℕ
  greatCount : ℕ
  goodCount : ℕ
  missCount : ℕ
deriving DecidableEq

/-- `HitJudgement` from the game types module. -/
structure HitJudgement where
  time : ℚ
  result : HitResult
  x : ℚ
  y : ℚ
  hitObject : HitObject
  points : ℕ
deriving DecidableEq

/-- `ReplayFrame` from the game types module. -/
structure ReplayFrame where
  time : ℚ
  x : ℚ
  y : ℚ
  keys : ℕ
deriving DecidableEq

/-- The set of active modifiers (`this.mods`), one flag per mod identifier. -/
structure Mods where
  ez : Bool
  hr : Bool
  dt : Bool
  ht : Bool
  hd : Bool
  fl : Bool
deriving DecidableEq

/-- The mod set with no active modifiers. -/
def noMods : Mods :=
  { ez := false, hr := false, dt := false, ht := false, hd := false, fl := false }

/-- `ActiveSlider` tracking record of the engine. -/
structure ActiveSlider where
  slider : Slider
  progress : ℚ
  ticksHit : ℕ
  isHeld : Bool
  startHit : Bool
deriving DecidableEq

/-- `ActiveSpinner` tracking record of the engine. -/
structure ActiveSpinner where
  spinner : Spinner
  rotation : ℚ
  lastAngle : Option ℚ
  spinsCompleted : ℚ
  requiredSpins : ℤ
  isActive : Bool
deriving DecidableEq

/-- Insertion-ordered association list modelling a JS `Map` keyed by object index. -/
abbrev AMap (α : Type) : Type := List (ℕ × α)

/-- JS `Map.has`. -/
def AMap.contains {α : Type} (m : AMap α) (k : ℕ) : Bool :=
  (List.find? (fun p => p.1 = k) m).isSome

/-- JS `Map.get`. -/
def AMap.get? {α : Type} (m : AMap α) (k : ℕ) : Option α :=
  Option.map (fun p => p.2) (List.find? (fun p => p.1 = k) m)

/-- JS `Map.set`: update in place when the key exists, append otherwise. -/
def AMap.set {α : Type} (m : AMap α) (k : ℕ) (v : α) : AMap α :=
  if AMap.contains m k then
    List.map (fun p => if p.1 = k then (k, v) else p) m
  else
    m ++ [(k, v)]

/-- JS `Map.delete`. -/
def AMap.erase {α : Type} (m : AMap α) (k : ℕ) : AMap α :=
  List.filter (fun p => ¬ p.1 = k) m

/-- The keys of the map in insertion order. -/
def AMap.keys {α : Type} (m : AMap α) : List ℕ :=
  List.map (fun p => p.1) m

/-- The transcendental functions of the source (`Math.atan2` and `Math.PI`),
abstracted: every verified property is independent of their values. -/
structure MathCtx where
  atan2 : ℚ → ℚ → ℚ
  piQ : ℚ

/-- The `GameEngine` instance state.  `audioDuration` stands for the external
clock collaborator's `getDuration()`.  `failEvents` and `judgeEvents` are ghost
logs recording each `onFail()` invocation and each `onJudgement` invocation
(keyed by object index). -/
structure Engine where
  beatmap : Option Beatmap
  gameState : GameState
  judgements : List HitJudgement
  activeSliders : AMap ActiveSlider
  activeSpinners : AMap ActiveSpinner
  processedObjects : List ℕ
  currentTime : ℚ
  isRunning : Bool
  mods : Mods
  replayFrames : List ReplayFrame
  lastMousePos : ℚ × ℚ
  circleRadius : ℚ
  approachTime : ℚ
  hitWindows : HitWindows
  audioDuration : ℚ
  failEvents : ℕ
  judgeEvents : List (ℕ × HitResult)

namespace GameEngine

/-- `createInitialState`. -/
def createInitialState : GameState :=
  { score := 0, combo := 0, maxCombo := 0, accuracy := 100, hp := 100,
    perfectCount := 0, greatCount := 0, goodCount := 0, missCount := 0 }

/-- JS `Set.add` on the processed-objects set (a set of object indices). -/
def setAdd (s : List ℕ) (i : ℕ) : List ℕ :=
  if i ∈ s then s else s ++ [i]

/-- A fresh engine (the constructor), given the external clock's duration. -/
def mkEngine (audioDuration : ℚ) : Engine :=
  { beatmap := none, gameState := createInitialState, judgements := [],
    activeSliders := [], activeSpinners := [], processedObjects := [],
    currentTime := 0, isRunning := false, mods := noMods, replayFrames := [],
    lastMousePos := (0, 0), circleRadius := 54, approachTime := 800,
    hitWindows := defaultHitWindows, audioDuration := audioDuration,
    failEvents := 0, judgeEvents := [] }

/-- The modifier scaling of the base difficulty numbers at the top of
`calculateDifficultyValues` (`ez` halves each, `hr` scales and caps at 10). -/
def applyModsToDifficulty (mods : Mods) (cs ar od : ℚ) : ℚ × ℚ × ℚ :=
  let cs := if mods.ez then cs * (1/2) else cs
  let ar := if mods.ez then ar * (1/2) else ar
  let od := if mods.ez then od * (1/2) else od
  let cs := if mods.hr then min 10 (cs * (13/10)) else cs
  let ar := if mods.hr then min 10 (ar * (7/5)) else ar
  let od := if mods.hr then min 10 (od * (7/5)) else od
  (cs, ar, od)

/-- The hit-window formulas of `calculateDifficultyValues`, as a function of
the post-modifier overall difficulty. -/
def hitWindowsFor (od : ℚ) : HitWindows :=
  { perfect := 80 - 6 * od, great := 140 - 8 * od, good := 200 - 10 * od }

/-- The approach-duration formula of `calculateDifficultyValues`. -/
def approachTimeFor (ar : ℚ) : ℚ :=
  if ar < 5 then 1800 - ar * 120 else 1200 - (ar - 5) * 150

/-- `calculateDifficultyValues`. -/
def calculateDifficultyValues (e : Engine) : Engine :=
  match e.beatmap with
  | none => e
  | some bm =>
    let csarod := applyModsToDifficulty e.mods bm.circleSize bm.approachRate
      bm.overallDifficulty
    { e with
      circleRadius := 272/5 - (112/25) * csarod.1
      approachTime := approachTimeFor csarod.2.1
      hitWindows := hitWindowsFor csarod.2.2 }

/-- `reset`. -/
def reset (e : Engine) : Engine :=
  { e with
    gameState := createInitialState
    judgements := []
    activeSliders := []
    activeSpinners := []
    processedObjects := []
    currentTime := 0
    replayFrames := [] }

/-- `loadBeatmap`. -/
def loadBeatmap (bm : Beatmap) (e : Engine) : Engine :=
  calculateDifficultyValues (reset { e with beatmap := some bm })

/-- `setMods` (the audio playback-rate adjustment lives in the external audio
collaborator and has no engine-state effect). -/
def setMods (mods : Mods) (e : Engine) : Engine :=
  let e := { e with mods := mods }
  if e.beatmap.isSome then calculateDifficultyValues e else e

/-- `start`. -/
def start (e : Engine) : Engine :=
  if e.beatmap.isNone then e else { reset e with isRunning := true }

/-- `stop`. -/
def stop (e : Engine) : Engine :=
  { e with isRunning := false }

/-- `pause`. -/
def pause (e : Engine) : Engine :=
  { e with isRunning := false }

/-- `resume`. -/
def resume (e : Engine) : Engine :=
  { e with isRunning := true }

/-- `isPointInCircle` (with the radius argument made explicit). -/
def isPointInCircle (px py cx cy r : ℚ) : Bool :=
  (px - cx) * (px - cx) + (py - cy) * (py - cy) ≤ r * r

/-- `getHitResult`. -/
def getHitResult (w : HitWindows) (timeDiff : ℚ) : HitResult :=
  if timeDiff ≤ w.perfect then .perfect
  else if timeDiff ≤ w.great then .great
  else if timeDiff ≤ w.good then .good
  else .miss

/-- The modifier score factor accumulated inside `addScore`. -/
def modMultiplier (mods : Mods) : ℚ :=
  let m : ℚ := 1
  let m := if mods.hr then m * (53/50) else m
  let m := if mods.dt then m * (28/25) else m
  let m := if mods.ht then m * (3/10) else m
  let m := if mods.ez then m * (1/2) else m
  let m := if mods.hd then m * (53/50) else m
  let m := if mods.fl then m * (28/25) else m
  m

/-- `addScore`. -/
def addScore (basePoints : ℚ) (applyCombo : Bool) (e : Engine) : Engine :=
  let comboMultiplier : ℚ := if applyCombo then max 1 e.gameState.combo else 1
  { e with gameState := { e.gameState with
      score := e.gameState.score +
        Int.floor (basePoints * comboMultiplier * modMultiplier e.mods) } }

/-- The accuracy formula of `updateAccuracy`, as a function of the counters. -/
def accuracyOf (p g go m : ℕ) : ℚ :=
  if p + g + go + m = 0 then 100
  else (((p : ℚ) * 300 + (g : ℚ) * 100 + (go : ℚ) * 50) /
    (((p + g + go + m : ℕ) : ℚ) * 300)) * 100

/-- `updateAccuracy`. -/
def updateAccuracy (e : Engine) : Engine :=
  { e with gameState := { e.gameState with
      accuracy := accuracyOf e.gameState.perfectCount e.gameState.greatCount
        e.gameState.goodCount e.gameState.missCount } }

/-- `processHit`: mark processed, bump the outcome counter, update combo,
add score, clamp HP, recompute accuracy, append the judgement, and notify
the `onJudgement` observer (ghost `judgeEvents`). -/
def processHit (objectIndex : ℕ) (result : HitResult) (hitObject : HitObject)
    (e : Engine) : Engine :=
  let e := { e with processedObjects := setAdd e.processedObjects objectIndex }
  let points := scoreValueOf result
  let hpChange := hpChangeOf result
  let e := { e with gameState :=
    match result with
    | .perfect => { e.gameState with perfectCount := e.gameState.perfectCount + 1 }
    | .great => { e.gameState with greatCount := e.gameState.greatCount + 1 }
    | .good => { e.gameState with goodCount := e.gameState.goodCount + 1 }
    | .miss => { e.gameState with missCount := e.gameState.missCount + 1 } }
  let e :=
    if result = .miss then
      { e with gameState := { e.gameState with combo := 0 } }
    else
      let newCombo := e.gameState.combo + 1
      { e with gameState := { e.gameState with
          combo := newCombo
          maxCombo := max e.gameState.maxCombo newCombo } }
  let e := addScore (points : ℚ) (¬ result = .miss) e
  let e := { e with gameState := { e.gameState with
      hp := max 0 (min 100 (e.gameState.hp + hpChange)) } }
  let e := updateAccuracy e
  let judgement : HitJudgement :=
    { time := e.currentTime, result := result, x := hitObject.x, y := hitObject.y,
      hitObject := hitObject, points := points }
  { e with
    judgements := e.judgements ++ [judgement]
    judgeEvents := e.judgeEvents ++ [(objectIndex, result)] }

end GameEngine

namespace GameEngine

/-- `Math.ceil((endTime - time) / 1000 * 2.5)`: the required-spins formula. -/
def requiredSpinsFor (sp : Spinner) : ℤ :=
  Int.ceil ((sp.endTime - sp.time) / 1000 * (5/2))

/-- The fresh `ActiveSpinner` record built by `activateSpinners` and by the
spinner branch of `handleClick`. -/
def freshActiveSpinner (sp : Spinner) : ActiveSpinner :=
  { spinner := sp, rotation := 0, lastAngle := none, spinsCompleted := 0,
    requiredSpins := requiredSpinsFor sp, isActive := true }

/-- One iteration of the `activateSpinners` loop at object index `i`. -/
def activateSpinnerStep (bm : Beatmap) (e : Engine) (i : ℕ) : Engine :=
  match bm.hitObjects.get? i with
  | some (HitObject.spinner sp) =>
    if i ∈ e.processedObjects then e
    else if AMap.contains e.activeSpinners i then e
    else if e.currentTime ≥ sp.time ∧ e.currentTime ≤ sp.endTime then
      { e with activeSpinners := AMap.set e.activeSpinners i (freshActiveSpinner sp) }
    else e
  | _ => e

/-- `activateSpinners`. -/
def activateSpinners (e : Engine) : Engine :=
  match e.beatmap with
  | none => e
  | some bm =>
    List.foldl (activateSpinnerStep bm) e (List.range bm.hitObjects.length)

/-- One iteration of the `checkMissedObjects` loop at object index `i` (the
source re-tests `processedObjects.has(i)` inside the slider and spinner
branches; that re-test is a no-op after the leading `continue` and is folded
into the single leading test here). -/
def missCheckStep (bm : Beatmap) (e : Engine) (i : ℕ) : Engine :=
  match bm.hitObjects.get? i with
  | none => e
  | some obj =>
    if i ∈ e.processedObjects then e
    else
      let missTime := obj.time + e.hitWindows.good
      match obj with
      | .circle _ =>
        if e.currentTime > missTime then processHit i .miss obj e else e
      | .slider s =>
        if e.currentTime > s.time + s.duration + e.hitWindows.good ∧
            ¬ AMap.contains e.activeSliders i then
          processHit i .miss obj e
        else e
      | .spinner sp =>
        if e.currentTime > sp.endTime ∧ ¬ AMap.contains e.activeSpinners i then
          processHit i .miss obj e
        else e

/-- `checkMissedObjects`. -/
def checkMissedObjects (e : Engine) : Engine :=
  match e.beatmap with
  | none => e
  | some bm =>
    List.foldl (missCheckStep bm) e (List.range bm.hitObjects.length)

/-- One iteration of the `updateActiveSliders` loop, on the entry `p` of the
iteration snapshot (JS `Map` iteration visits each entry once in insertion
order; only the entry being visited is ever mutated or deleted, so folding
over the snapshot list coincides with iterating the live map). -/
def sliderFrameStep (e : Engine) (p : ℕ × ActiveSlider) : Engine :=
  let slider := p.2.slider
  let elapsed := e.currentTime - slider.time
  let progress := min 1 (elapsed / slider.duration)
  let a := { p.2 with progress := progress }
  let e := { e with activeSliders := AMap.set e.activeSliders p.1 a }
  if progress ≥ 1 then
    let result : HitResult :=
      if (a.ticksHit : ℚ) ≥ slider.tickCount * (1/2) then .great else .good
    let e := processHit p.1 result (HitObject.slider slider) e
    { e with activeSliders := AMap.erase e.activeSliders p.1 }
  else e

/-- `updateActiveSliders`. -/
def updateActiveSliders (e : Engine) : Engine :=
  List.foldl sliderFrameStep e e.activeSliders

/-- One iteration of the `updateActiveSpinners` loop on a snapshot entry. -/
def spinnerFrameStep (e : Engine) (p : ℕ × ActiveSpinner) : Engine :=
  let sp := p.2.spinner
  if e.currentTime ≥ sp.endTime then
    let result : HitResult :=
      if p.2.spinsCompleted ≥ (p.2.requiredSpins : ℚ) then .perfect
      else if p.2.spinsCompleted ≥ (p.2.requiredSpins : ℚ) * (1/2) then .great
      else .miss
    let e := processHit p.1 result (HitObject.spinner sp) e
    { e with activeSpinners := AMap.erase e.activeSpinners p.1 }
  else e

/-- `updateActiveSpinners`. -/
def updateActiveSpinners (e : Engine) : Engine :=
  List.foldl spinnerFrameStep e e.activeSpinners

/-- The break test of `update` (`this.beatmap.breaks.some(...)`). -/
def inBreakAt (bm : Beatmap) (t : ℚ) : Bool :=
  bm.breaks.any (fun b => decide (t ≥ b.startTime) && decide (t ≤ b.endTime))

/-- The speed-mod time multiplier computed at the top of `update`. -/
def timeMultiplierOf (mods : Mods) : ℚ :=
  if mods.dt then 3/2 else if mods.ht then 3/4 else 1

/-- The drained HP value `hp - hpDrainRate * 0.01 * timeMultiplier * (ez ? 0.5 : 1)`
computed by the HP-drain block of `update`. -/
def drainNewHp (bm : Beatmap) (timeMultiplier : ℚ) (e : Engine) : ℚ :=
  let drainRate := bm.hpDrainRate * (1/100) * timeMultiplier
  if e.mods.ez then e.gameState.hp - drainRate * (1/2)
  else e.gameState.hp - drainRate

/-- The HP-drain block of `update` (the lines guarded by `hp > 0 && !inBreak`):
drains, clamps at 0 and invokes `onFail` (ghost `failEvents`) when the drain
reaches 0. -/
def hpDrainPhase (bm : Beatmap) (timeMultiplier : ℚ) (e : Engine) : Engine :=
  if e.gameState.hp > 0 ∧ inBreakAt bm e.currentTime = false then
    let newHp := drainNewHp bm timeMultiplier e
    if newHp ≤ 0 then
      { e with
        gameState := { e.gameState with hp := 0 }
        failEvents := e.failEvents + 1 }
    else
      { e with gameState := { e.gameState with hp := newHp } }
  else e

/-- The effective end time of the last hit object, as computed in `update`
(the JS `lastObject?.time || 0` default for an empty chart becomes 0). -/
def lastObjectEndTime (bm : Beatmap) : ℚ :=
  match bm.hitObjects.getLast? with
  | some (.slider s) => s.time + s.duration
  | some (.spinner s) => s.endTime
  | some (.circle c) => c.time
  | none => 0

/-- `endGame`: stops the run (the replay hand-off and `onGameEnd` callback
carry no further engine state). -/
def endGame (e : Engine) : Engine :=
  { e with isRunning := false }

/-- The object-lifecycle phases of `update`, in source order: set the clock,
auto-activate spinners, sweep for timed-out misses, then advance active
sliders and spinners. -/
def updatePhases (t : ℚ) (e : Engine) : Engine :=
  updateActiveSpinners (updateActiveSliders (checkMissedObjects
    (activateSpinners { e with currentTime := t })))

/-- `update`, with the external clock reading passed as `t`. -/
def update (t : ℚ) (e : Engine) : Engine :=
  if ¬ e.isRunning then e
  else
    match e.beatmap with
    | none => e
    | some bm =>
      let e := updatePhases t e
      let e := hpDrainPhase bm (timeMultiplierOf e.mods) e
      let allProcessed := e.processedObjects.length ≥ bm.hitObjects.length
      if allProcessed ∧ e.currentTime > lastObjectEndTime bm + 1000 then endGame e
      else if e.currentTime ≥ e.audioDuration then endGame e
      else e

/-- The object scan of `handleClick`, with its early returns; a skipped object
leaves the engine untouched, so the engine argument is constant along the
scan. -/
def clickScan (ctx : MathCtx) (bm : Beatmap) (x y : ℚ) (e : Engine) :
    List ℕ → Engine
  | [] => e
  | i :: rest =>
    match bm.hitObjects.get? i with
    | none => clickScan ctx bm x y e rest
    | some obj =>
      if i ∈ e.processedObjects then clickScan ctx bm x y e rest
      else
        let timeDiff := |e.currentTime - obj.time|
        if timeDiff ≤ e.hitWindows.good then
          match obj with
          | .circle c =>
            if isPointInCircle x y c.x c.y e.circleRadius then
              processHit i (getHitResult e.hitWindows timeDiff) obj e
            else clickScan ctx bm x y e rest
          | .slider s =>
            if isPointInCircle x y s.x s.y e.circleRadius then
              let result := getHitResult e.hitWindows timeDiff
              if result = .miss then e
              else
                let a : ActiveSlider :=
                  { slider := s, progress := 0, ticksHit := 1, isHeld := true,
                    startHit := true }
                let e := { e with activeSliders := AMap.set e.activeSliders i a }
                addScore ((scoreValueOf result : ℚ) / 3) true e
            else clickScan ctx bm x y e rest
          | .spinner sp =>
            if e.currentTime ≥ sp.time ∧ e.currentTime ≤ sp.endTime then
              let e :=
                if AMap.contains e.activeSpinners i then e
                else
                  { e with
                    activeSpinners := AMap.set e.activeSpinners i (freshActiveSpinner sp) }
              match AMap.get? e.activeSpinners i with
              | some a =>
                { e with
                  activeSpinners := AMap.set e.activeSpinners i
                    { a with lastAngle := some (ctx.atan2 (y - 192) (x - 256)) } }
              | none => e
            else clickScan ctx bm x y e rest
        else clickScan ctx bm x y e rest

/-- `handleClick`. -/
def handleClick (ctx : MathCtx) (x y : ℚ) (e : Engine) : Engine :=
  if ¬ e.isRunning then e
  else
    match e.beatmap with
    | none => e
    | some bm =>
      let e := { e with replayFrames := e.replayFrames ++
        [{ time := e.currentTime, x := x, y := y, keys := 1 }] }
      clickScan ctx bm x y e (List.range bm.hitObjects.length)

/-- `getSliderPosition` (piecewise-linear path interpolation; for the
in-range indices produced by a progress in `[0, 1]` the `getD` defaults are
never consulted). -/
def getSliderPosition (s : Slider) (progress : ℚ) : ℚ × ℚ :=
  let slideNumber : ℤ := Int.floor (progress * (s.slides : ℚ))
  let t0 := jsMod (progress * (s.slides : ℚ)) 1
  let t1 := if Int.tmod slideNumber 2 = 1 then 1 - t0 else t0
  match s.curvePoints with
  | [] => (s.x, s.y)
  | _ =>
    let allPoints : List SliderPoint := { x := s.x, y := s.y } :: s.curvePoints
    let totalPoints := allPoints.length
    let index : ℤ :=
      min (Int.floor (t1 * ((totalPoints : ℚ) - 1))) ((totalPoints : ℤ) - 2)
    let localT := jsMod (t1 * ((totalPoints : ℚ) - 1)) 1
    let p0 := allPoints.getD index.toNat { x := s.x, y := s.y }
    let p1 := allPoints.getD (index.toNat + 1) { x := s.x, y := s.y }
    (p0.x + (p1.x - p0.x) * localT, p0.y + (p1.y - p0.y) * localT)

/-- The slider-tracking loop of `handleMouseMove`, on a snapshot entry. -/
def moveSliderStep (x y : ℚ) (e : Engine) (p : ℕ × ActiveSlider) : Engine :=
  if p.2.isHeld then
    let sliderPos := getSliderPosition p.2.slider p.2.progress
    if isPointInCircle x y sliderPos.1 sliderPos.2 (e.circleRadius * (5/2)) then
      { e with
        activeSliders := AMap.set e.activeSliders p.1
          { p.2 with ticksHit := p.2.ticksHit + 1 } }
    else
      { e with
        activeSliders := AMap.set e.activeSliders p.1
          { p.2 with isHeld := false } }
  else e

/-- The angle-delta normalization of the spinner-rotation loop: the raw delta
`angle - lastAngle`, wrapped into `(-pi, pi]` by the two corrective branches. -/
def spinDelta (ctx : MathCtx) (la angle : ℚ) : ℚ :=
  let d0 := angle - la
  let d1 := if d0 > ctx.piQ then d0 - 2 * ctx.piQ else d0
  if d1 < -ctx.piQ then d1 + 2 * ctx.piQ else d1

/-- The spinner-rotation loop of `handleMouseMove`, on a snapshot entry:
normalize the angular delta into `(-pi, pi]`, accumulate unsigned rotation,
and grant the non-combo spin bonus for each whole spin gained. -/
def moveSpinnerStep (ctx : MathCtx) (x y : ℚ) (e : Engine)
    (p : ℕ × ActiveSpinner) : Engine :=
  match p.2.lastAngle with
  | none =>
    { e with
      activeSpinners := AMap.set e.activeSpinners p.1
        { p.2 with lastAngle := some (ctx.atan2 (y - 192) (x - 256)) } }
  | some la =>
    let angle := ctx.atan2 (y - 192) (x - 256)
    let rotation := p.2.rotation + |spinDelta ctx la angle|
    let a := { p.2 with rotation := rotation, lastAngle := some angle }
    let newSpins := rotation / (2 * ctx.piQ)
    if newSpins > a.spinsCompleted then
      let spinsGained := Int.floor newSpins - Int.floor a.spinsCompleted
      let a' := { a with spinsCompleted := newSpins }
      let e := { e with activeSpinners := AMap.set e.activeSpinners p.1 a' }
      if spinsGained > 0 then addScore (100 * (spinsGained : ℚ)) false e else e
    else
      { e with activeSpinners := AMap.set e.activeSpinners p.1 a }

/-- `handleMouseMove`. -/
def handleMouseMove (ctx : MathCtx) (x y : ℚ) (e : Engine) : Engine :=
  if ¬ e.isRunning then e
  else
    let e := { e with lastMousePos := (x, y) }
    let e := List.foldl (moveSliderStep x y) e e.activeSliders
    List.foldl (moveSpinnerStep ctx x y) e e.activeSpinners

/-- `handleMouseUp`: clears every `isHeld` flag (note: no `isRunning` guard in
the source). -/
def handleMouseUp (e : Engine) : Engine :=
  { e with activeSliders :=
      List.map (fun p => (p.1, { p.2 with isHeld := false })) e.activeSliders }

/-- The external events a run is driven by: frame advances (carrying the
external clock reading) and input/control events. -/
inductive Action where
  | frame (t : ℚ)
  | click (x y : ℚ)
  | move (x y : ℚ)
  | release
  | startRun
  | stopRun
  | pauseRun
  | resumeRun

/-- Dispatch one external event to the engine. -/
def stepAction (ctx : MathCtx) (e : Engine) (a : Action) : Engine :=
  match a with
  | .frame t => update t e
  | .click x y => handleClick ctx x y e
  | .move x y => handleMouseMove ctx x y e
  | .release => handleMouseUp e
  | .startRun => start e
  | .stopRun => stop e
  | .pauseRun => pause e
  | .resumeRun => resume e

/-- Run a sequence of external events. -/
def runActions (ctx : MathCtx) (e : Engine) (acts : List Action) : Engine :=
  List.foldl (stepAction ctx) e acts

end GameEngine

namespace GameEngine

/-- The `onJudgement` invocations recorded for object index `i`, in order. -/
def judgeEventsFor (i : ℕ) (e : Engine) : List (ℕ × HitResult) :=
  List.filter (fun p => decide (p.1 = i)) e.judgeEvents

/-- How many times object index `i` has been judged (= `onJudgement`
invocations for it). -/
def countJudge (i : ℕ) (e : Engine) : ℕ :=
  (judgeEventsFor i e).length

/-- The object-lifecycle tracker invariant: the active-map keys are pairwise
distinct, refer to loaded beatmap objects of the matching kind, and are never
already judged. -/
def TrackerInv (e : Engine) : Prop :=
  (AMap.keys e.activeSliders).Nodup ∧
  (AMap.keys e.activeSpinners).Nodup ∧
  (∀ p ∈ e.activeSliders, p.1 ∉ e.processedObjects ∧
    ∃ bm s, e.beatmap = some bm ∧
      bm.hitObjects.get? p.1 = some (HitObject.slider s)) ∧
  (∀ p ∈ e.activeSpinners, p.1 ∉ e.processedObjects ∧
    ∃ bm sp, e.beatmap = some bm ∧
      bm.hitObjects.get? p.1 = some (HitObject.spinner sp))

/-- The condition under which the timeout sweep (`checkMissedObjects`) judges
object `i` of kind `obj` as a miss on the current frame. -/
def missFiresAt (e : Engine) (i : ℕ) (obj : HitObject) : Prop :=
  match obj with
  | .circle c => e.currentTime > c.time + e.hitWindows.good
  | .slider s => e.currentTime > s.time + s.duration + e.hitWindows.good ∧
      AMap.contains e.activeSliders i = false
  | .spinner sp => e.currentTime > sp.endTime ∧
      AMap.contains e.activeSpinners i = false

/-- The `handleClick` scan passes over index `i` without effect: the object is
already judged, outside the good window, or the click misses it spatially
(circles, slider heads) or temporally (spinners). -/
def clickPasses (bm : Beatmap) (x y : ℚ) (processed : List ℕ) (t : ℚ)
    (w : HitWindows) (r : ℚ) (i : ℕ) : Prop :=
  match bm.hitObjects.get? i with
  | none => True
  | some obj =>
    i ∈ processed ∨ ¬ |t - obj.time| ≤ w.good ∨
    (match obj with
     | .circle c => isPointInCircle x y c.x c.y r = false
     | .slider s => isPointInCircle x y s.x s.y r = false
     | .spinner sp => ¬ (t ≥ sp.time ∧ t ≤ sp.endTime))

/-- Whether the frame advance at clock reading `t` finds, at its HP-drain
step, a positive HP that the drain takes to (at most) zero — which is exactly
when `update` invokes `onFail`. -/
def updateFailCond (t : ℚ) (e : Engine) : Bool :=
  e.isRunning &&
  (match e.beatmap with
   | none => false
   | some bm =>
     let e4 := updatePhases t e
     decide (e4.gameState.hp > 0) && !(inBreakAt bm e4.currentTime) &&
       decide (drainNewHp bm (timeMultiplierOf e4.mods) e4 ≤ 0))

/-- A concrete transcendental context for the closed examples. -/
def ctx0 : MathCtx :=
  { atan2 := fun _ _ => 0, piQ := 355/113 }

/-- A transcendental context whose abstracted `2 * pi` equals 1, used by the
spin-bonus example. -/
def ctxUnit : MathCtx :=
  { atan2 := fun _ _ => 0, piQ := 1/2 }

/-- A circle at the playfield centre with the given time. -/
def circAt (t : ℚ) : HitObject :=
  HitObject.circle
    { x := 256, y := 192, time := t, comboNumber := 1, comboColor := 0 }

/-- A single-circle chart used by the closed examples. -/
def bmOneCircle : Beatmap :=
  { hpDrainRate := 5, circleSize := 4, overallDifficulty := 5, approachRate := 5,
    sliderMultiplier := 7/5, sliderTickRate := 1, breaks := [],
    hitObjects := [circAt 1000] }

/-- The started engine on `bmOneCircle`. -/
def engOneCircle : Engine :=
  start (setMods noMods (loadBeatmap bmOneCircle (mkEngine 1000000)))

/-- `engOneCircle` after a frame past the circle's good window: the circle has
been judged `miss`. -/
def engAfterMiss : Engine :=
  runActions ctx0 engOneCircle [Action.frame 1200]

/-- A heavy-drain single-circle chart: one frame of drain takes HP from 100
down to 4. -/
def bmHeavyDrain : Beatmap :=
  { hpDrainRate := 9600, circleSize := 4, overallDifficulty := 5, approachRate := 5,
    sliderMultiplier := 7/5, sliderTickRate := 1, breaks := [],
    hitObjects := [circAt 2000] }

/-- The engine on `bmHeavyDrain` after one frame: hp = 4, nothing judged. -/
def engDrained : Engine :=
  runActions ctx0 (start (setMods noMods (loadBeatmap bmHeavyDrain (mkEngine 1000000))))
    [Action.frame 1]

/-- `engDrained` after a frame past the good window: the miss penalty takes
hp from 4 to 0. -/
def engMissedToZero : Engine :=
  runActions ctx0 engDrained [Action.frame 2151]

/-- A concrete slider: head at the centre, one control point, 500 ms long. -/
def slider0 : Slider :=
  { x := 256, y := 192, time := 1000, curvePoints := [{ x := 356, y := 192 }],
    slides := 1, length := 100, comboNumber := 1, comboColor := 0,
    duration := 500, tickCount := 2 }

/-- A single-slider chart. -/
def bmOneSlider : Beatmap :=
  { hpDrainRate := 5, circleSize := 4, overallDifficulty := 5, approachRate := 5,
    sliderMultiplier := 7/5, sliderTickRate := 1, breaks := [],
    hitObjects := [HitObject.slider slider0] }

/-- The started engine on `bmOneSlider`, advanced to the slider's start time. -/
def engOneSlider : Engine :=
  runActions ctx0 (start (setMods noMods (loadBeatmap bmOneSlider (mkEngine 1000000))))
    [Action.frame 1000]

/-- A tracking record for `slider0`: engaged, one tick credited. -/
def activeSlider0 : ActiveSlider :=
  { slider := slider0, progress := 99/100, ticksHit := 1, isHeld := true,
    startHit := true }

/-- An engine holding one engaged slider whose time is up (progress ≥ 1). -/
def engSliderDone : Engine :=
  { mkEngine 1000000 with
    isRunning := true
    currentTime := 2000
    activeSliders := [(0, activeSlider0)] }

/-- A concrete spinner running from 1000 ms to 3000 ms. -/
def spinner0 : Spinner :=
  { x := 256, y := 192, time := 1000, endTime := 3000, comboNumber := 1,
    comboColor := 0 }

/-- A single-spinner chart. -/
def bmOneSpinner : Beatmap :=
  { hpDrainRate := 5, circleSize := 4, overallDifficulty := 5, approachRate := 5,
    sliderMultiplier := 7/5, sliderTickRate := 1, breaks := [],
    hitObjects := [HitObject.spinner spinner0] }

/-- An engine on `bmOneSpinner` inside the spinner's active span, with the
spinner not yet activated. -/
def engSpinnerPending : Engine :=
  { loadBeatmap bmOneSpinner (mkEngine 1000000) with
    isRunning := true
    currentTime := 1500 }

/-- An engine holding one active spinner that has accumulated 6.5 spins worth
of rotation (under `ctxUnit`, where a full spin costs rotation 1) but has
credited none of them yet. -/
def activeSpinnerSpun : ActiveSpinner :=
  { spinner := spinner0, rotation := 13/2, lastAngle := some 0,
    spinsCompleted := 0, requiredSpins := 5, isActive := true }

def engSpinnerSpun : Engine :=
  { mkEngine 1000000 with
    isRunning := true
    currentTime := 1500
    activeSpinners := [(0, activeSpinnerSpun)] }

/-- An engine holding one active spinner at its end time with all required
spins completed. -/
def activeSpinnerDone : ActiveSpinner :=
  { spinner := spinner0, rotation := 11, lastAngle := some 0,
    spinsCompleted := 11/2, requiredSpins := 5, isActive := true }

def engSpinnerDone : Engine :=
  { mkEngine 1000000 with
    isRunning := true
    currentTime := 3000
    activeSpinners := [(0, activeSpinnerDone)] }

/-- A loaded but not started engine (`isRunning = false`). -/
def engStopped : Engine :=
  loadBeatmap bmOneCircle (mkEngine 1000000)

/-- The mod set with only the easing modifier. -/
def ezOnly : Mods := { noMods with ez := true }

/-- The mod set with only the hardening modifier. -/
def hrOnly : Mods := { noMods with hr := true }

/-- `engOneSlider` long after the slider's span, with the slider never
engaged. -/
def engSliderLate : Engine :=
  { engOneSlider with currentTime := 100000 }

end GameEngine

namespace GameEngine

theorem addScore_eq (b : ℚ) (c : Bool) (e : Engine) :
    addScore b c e = { e with gameState := { e.gameState with
      score := e.gameState.score +
        Int.floor (b * (if c then max 1 (e.gameState.combo : ℚ) else 1) *
          modMultiplier e.mods) } } := rfl

theorem modMultiplier_prod (m : Mods) :
    modMultiplier m =
      (if m.hr then (53/50 : ℚ) else 1) * (if m.dt then (28/25 : ℚ) else 1) *
      (if m.ht then (3/10 : ℚ) else 1) * (if m.ez then (1/2 : ℚ) else 1) *
      (if m.hd then (53/50 : ℚ) else 1) * (if m.fl then (28/25 : ℚ) else 1) := by
  rcases m with ⟨ez, hr, dt, ht, hd, fl⟩
  unfold modMultiplier
  cases hr <;> cases dt <;> cases ht <;> cases ez <;> cases hd <;> cases fl <;>
    norm_num

/-- C7: every score addition satisfies
`score += floor(basePoints * comboMultiplier * modMultiplier)`, where the
combo multiplier is `max 1 combo` exactly when requested and the mod
multiplier is the product of the fixed factors of the active modifiers
(hardening 1.06, speed-up 1.12, slow-down 0.3, easing 0.5,
visibility-reducing 1.06, narrow-view 1.12). -/
theorem c7_score_formula : ∀ (basePoints : ℚ) (applyCombo : Bool) (e : Engine),
    (addScore basePoints applyCombo e).gameState.score =
      e.gameState.score + Int.floor (basePoints *
        (if applyCombo then max 1 (e.gameState.combo : ℚ) else 1) *
        ((if e.mods.hr then (53/50 : ℚ) else 1) *
         (if e.mods.dt then (28/25 : ℚ) else 1) *
         (if e.mods.ht then (3/10 : ℚ) else 1) *
         (if e.mods.ez then (1/2 : ℚ) else 1) *
         (if e.mods.hd then (53/50 : ℚ) else 1) *
         (if e.mods.fl then (28/25 : ℚ) else 1))) := by
  intro b c e
  rw [addScore_eq, ← modMultiplier_prod]

/-- C8: after every judgement the accuracy equals
`(perfect*300 + great*100 + good*50) / (totalJudged*300) * 100` (100 with
nothing judged); a fresh state reports 100, one perfect alone reports 100,
and one perfect plus one miss reports 50. -/
theorem c8_accuracy :
    (∀ (i : ℕ) (r : HitResult) (o : HitObject) (e : Engine),
      (processHit i r o e).gameState.accuracy =
        accuracyOf (processHit i r o e).gameState.perfectCount
          (processHit i r o e).gameState.greatCount
          (processHit i r o e).gameState.goodCount
          (processHit i r o e).gameState.missCount) ∧
    createInitialState.accuracy = 100 ∧
    accuracyOf 0 0 0 0 = 100 ∧
    (processHit 0 .perfect (circAt 1000) engOneCircle).gameState.accuracy = 100 ∧
    (processHit 1 .miss (circAt 1000)
      (processHit 0 .perfect (circAt 1000) engOneCircle)).gameState.accuracy = 50 := by
  refine ⟨?_, rfl, ?_, ?_, ?_⟩
  · intro i r o e
    cases r <;> rfl
  · with_unfolding_all decide
  · with_unfolding_all decide
  · with_unfolding_all decide

/-- C4 (counterexample): the hardening modifier does not scale the three base
difficulty numbers by one common factor: at `(cs, ar, od) = (1, 1, 1)` it
produces `cs = 1.3` but `ar = 1.4`, so no single capped factor matches. -/
theorem c4_counterexample :
    ¬ ∃ f : ℚ,
      (applyModsToDifficulty hrOnly 1 1 1).1 = min 10 (1 * f) ∧
      (applyModsToDifficulty hrOnly 1 1 1).2.1 = min 10 (1 * f) ∧
      (applyModsToDifficulty hrOnly 1 1 1).2.2 = min 10 (1 * f) := by
  intro h
  obtain ⟨f, h1, h2, h3⟩ := h
  have e1 : (applyModsToDifficulty hrOnly 1 1 1).1 = 13/10 := by
    with_unfolding_all decide
  have e2 : (applyModsToDifficulty hrOnly 1 1 1).2.1 = 7/5 := by
    with_unfolding_all decide
  rw [e1] at h1
  rw [e2] at h2
  rw [← h1] at h2
  norm_num at h2

/-- C4 (amended): before the difficulty formulas run, the easing modifier
halves each of circleSize, approachRate and overallDifficulty; the hardening
modifier scales circleSize by 1.3 and approachRate and overallDifficulty by
1.4, each capped at 10 (not one common factor); with neither modifier the
base numbers are unchanged. -/
theorem c4_amended : ∀ cs ar od : ℚ,
    applyModsToDifficulty noMods cs ar od = (cs, ar, od) ∧
    applyModsToDifficulty ezOnly cs ar od =
      (cs * (1/2), ar * (1/2), od * (1/2)) ∧
    applyModsToDifficulty hrOnly cs ar od =
      (min 10 (cs * (13/10)), min 10 (ar * (7/5)), min 10 (od * (7/5))) := by
  intro cs ar od
  refine ⟨?_, ?_, ?_⟩ <;> simp [applyModsToDifficulty, noMods, ezOnly, hrOnly]

/-- C3: after difficulty resolution the hit windows are
`perfect = 80 - 6*OD`, `great = 140 - 8*OD`, `good = 200 - 10*OD` in the
post-modifier overall difficulty, so `perfect < great < good` for OD in
[0, 10]; OD = 8 gives (32, 76, 120); and a hit's result is the tightest
window containing its absolute time delta, ties going to the tighter band. -/
theorem c3_hit_windows :
    (∀ (e : Engine) (bm : Beatmap), e.beatmap = some bm →
      (calculateDifficultyValues e).hitWindows =
        hitWindowsFor (applyModsToDifficulty e.mods bm.circleSize
          bm.approachRate bm.overallDifficulty).2.2) ∧
    (∀ od : ℚ, 0 ≤ od → od ≤ 10 →
      (hitWindowsFor od).perfect < (hitWindowsFor od).great ∧
      (hitWindowsFor od).great < (hitWindowsFor od).good) ∧
    hitWindowsFor 8 = { perfect := 32, great := 76, good := 120 } ∧
    (∀ (w : HitWindows) (d : ℚ), w.perfect < w.great → w.great < w.good →
      ((getHitResult w d = .perfect ↔ d ≤ w.perfect) ∧
       (getHitResult w d = .great ↔ w.perfect < d ∧ d ≤ w.great) ∧
       (getHitResult w d = .good ↔ w.great < d ∧ d ≤ w.good) ∧
       (getHitResult w d = .miss ↔ w.good < d))) := by
  refine ⟨?_, ?_, ?_, ?_⟩
  · intro e bm h
    simp [calculateDifficultyValues, h]
  · intro od h0 h10
    constructor <;> simp [hitWindowsFor] <;> linarith
  · with_unfolding_all decide
  · intro w d hpg hgg
    unfold getHitResult
    split_ifs with h1 h2 h3
    · exact ⟨iff_of_true rfl h1,
        iff_of_false (by decide) (by rintro ⟨a, b⟩; linarith),
        iff_of_false (by decide) (by rintro ⟨a, b⟩; linarith),
        iff_of_false (by decide) (by intro hc; linarith)⟩
    · exact ⟨iff_of_false (by decide) h1,
        iff_of_true rfl ⟨not_le.mp h1, h2⟩,
        iff_of_false (by decide) (by rintro ⟨a, b⟩; linarith),
        iff_of_false (by decide) (by intro hc; linarith)⟩
    · exact ⟨iff_of_false (by decide) h1,
        iff_of_false (by decide) (by rintro ⟨a, b⟩; exact h2 b),
        iff_of_true rfl ⟨not_le.mp h2, h3⟩,
        iff_of_false (by decide) (by intro hc; linarith)⟩
    · exact ⟨iff_of_false (by decide) h1,
        iff_of_false (by decide) (by rintro ⟨a, b⟩; exact h2 b),
        iff_of_false (by decide) (by rintro ⟨a, b⟩; exact h3 b),
        iff_of_true rfl (not_le.mp h3)⟩

theorem c3_hit_windows_witness :
    ((0:ℚ) ≤ 8 ∧ (8:ℚ) ≤ 10) ∧
    ((hitWindowsFor 8).perfect < (hitWindowsFor 8).great ∧
     (hitWindowsFor 8).great < (hitWindowsFor 8).good) ∧
    (getHitResult (hitWindowsFor 8) 32 = .perfect ↔
      (32:ℚ) ≤ (hitWindowsFor 8).perfect) := by
  refine ⟨⟨by norm_num, by norm_num⟩, c3_hit_windows.2.1 8 (by norm_num) (by norm_num), ?_⟩
  exact (c3_hit_windows.2.2.2 (hitWindowsFor 8) 32
    (by with_unfolding_all decide) (by with_unfolding_all decide)).1

/-- C10: while the engine is not running, `update`, `handleClick` and
`handleMouseMove` leave the whole engine state (replay log, judgements and
`GameState` included) unchanged. -/
theorem c10_idle_noop : ∀ (ctx : MathCtx) (t x y mx my : ℚ) (e : Engine),
    e.isRunning = false →
    update t e = e ∧ handleClick ctx x y e = e ∧ handleMouseMove ctx mx my e = e := by
  intro ctx t x y mx my e h
  refine ⟨?_, ?_, ?_⟩ <;> simp [update, handleClick, handleMouseMove, h]

theorem c10_idle_noop_witness :
    engStopped.isRunning = false ∧
    update 5 engStopped = engStopped ∧
    handleClick ctx0 1 2 engStopped = engStopped ∧
    handleMouseMove ctx0 3 4 engStopped = engStopped :=
  ⟨rfl, (c10_idle_noop ctx0 5 1 2 3 4 engStopped rfl).1,
    (c10_idle_noop ctx0 5 1 2 3 4 engStopped rfl).2.1,
    (c10_idle_noop ctx0 5 1 2 3 4 engStopped rfl).2.2⟩

end GameEngine

namespace GameEngine

theorem processHit_failEvents (i : ℕ) (r : HitResult) (o : HitObject) (e : Engine) :
    (processHit i r o e).failEvents = e.failEvents := by
  cases r <;> rfl

theorem activateSpinnerStep_shape (bm : Beatmap) (e : Engine) (i : ℕ) :
    ∃ m, activateSpinnerStep bm e i = { e with activeSpinners := m } := by
  unfold activateSpinnerStep
  split
  · split_ifs <;> exact ⟨_, rfl⟩
  · exact ⟨_, rfl⟩

theorem activateSpinnerStep_failEvents (bm : Beatmap) (e : Engine) (i : ℕ) :
    (activateSpinnerStep bm e i).failEvents = e.failEvents := by
  obtain ⟨m, hm⟩ := activateSpinnerStep_shape bm e i
  rw [hm]

theorem missCheckStep_failEvents (bm : Beatmap) (e : Engine) (i : ℕ) :
    (missCheckStep bm e i).failEvents = e.failEvents := by
  unfold missCheckStep
  repeat' split
  all_goals dsimp only
  all_goals try split_ifs
  all_goals simp [processHit_failEvents]

theorem sliderFrameStep_failEvents (e : Engine) (p : ℕ × ActiveSlider) :
    (sliderFrameStep e p).failEvents = e.failEvents := by
  unfold sliderFrameStep
  dsimp only
  split_ifs <;> simp [processHit_failEvents]

theorem spinnerFrameStep_failEvents (e : Engine) (p : ℕ × ActiveSpinner) :
    (spinnerFrameStep e p).failEvents = e.failEvents := by
  unfold spinnerFrameStep
  repeat' split
  all_goals dsimp only
  all_goals try split_ifs
  all_goals simp [processHit_failEvents]

theorem foldl_pres {α β : Type} (proj : Engine → β) (f : Engine → α → Engine)
    (h : ∀ e a, proj (f e a) = proj e) :
    ∀ (l : List α) (e : Engine), proj (List.foldl f e l) = proj e := by
  intro l
  induction l with
  | nil => intro e; rfl
  | cons a l ih =>
    intro e
    rw [List.foldl_cons, ih, h]

theorem activateSpinners_failEvents (e : Engine) :
    (activateSpinners e).failEvents = e.failEvents := by
  unfold activateSpinners
  cases hb : e.beatmap with
  | none => rfl
  | some bm =>
    exact foldl_pres (fun x => x.failEvents) (activateSpinnerStep bm)
      (fun e' i => activateSpinnerStep_failEvents bm e' i)
      (List.range bm.hitObjects.length) e

theorem checkMissedObjects_failEvents (e : Engine) :
    (checkMissedObjects e).failEvents = e.failEvents := by
  unfold checkMissedObjects
  cases hb : e.beatmap with
  | none => rfl
  | some bm =>
    exact foldl_pres (fun x => x.failEvents) (missCheckStep bm)
      (fun e' i => missCheckStep_failEvents bm e' i)
      (List.range bm.hitObjects.length) e

theorem updateActiveSliders_failEvents (e : Engine) :
    (updateActiveSliders e).failEvents = e.failEvents := by
  unfold updateActiveSliders
  exact foldl_pres (fun x => x.failEvents) sliderFrameStep
    (fun e' p => sliderFrameStep_failEvents e' p) e.activeSliders e

theorem updateActiveSpinners_failEvents (e : Engine) :
    (updateActiveSpinners e).failEvents = e.failEvents := by
  unfold updateActiveSpinners
  exact foldl_pres (fun x => x.failEvents) spinnerFrameStep
    (fun e' p => spinnerFrameStep_failEvents e' p) e.activeSpinners e

theorem updatePhases_failEvents (t : ℚ) (e : Engine) :
    (updatePhases t e).failEvents = e.failEvents := by
  unfold updatePhases
  rw [updateActiveSpinners_failEvents, updateActiveSliders_failEvents,
    checkMissedObjects_failEvents, activateSpinners_failEvents]

theorem hpDrainPhase_failEvents (bm : Beatmap) (tm : ℚ) (e : Engine) :
    (hpDrainPhase bm tm e).failEvents = e.failEvents +
      (if e.gameState.hp > 0 ∧ inBreakAt bm e.currentTime = false ∧
          drainNewHp bm tm e ≤ 0 then 1 else 0) := by
  unfold hpDrainPhase
  by_cases hA1 : e.gameState.hp > 0
  · by_cases hA2 : inBreakAt bm e.currentTime = false
    · by_cases hC : drainNewHp bm tm e ≤ 0
      · simp [hA1, hA2, hC]
      · simp [hA1, hA2, hC]
    · simp [hA1, hA2]
  · simp [hA1]

theorem ite_endGame_failEvents (c1 c2 : Prop) [Decidable c1] [Decidable c2]
    (e : Engine) :
    (if c1 then endGame e else if c2 then endGame e else e).failEvents =
      e.failEvents := by
  split_ifs <;> rfl

/-- C1 (amended): `onFail` is invoked exactly on those frame advances whose
HP-drain step finds hp positive (after the frame's judgements), outside a
break, with the drained value at most 0.  Judgements themselves — including a
miss penalty that lowers hp to 0 — never invoke it, and there is no one-shot
latch: the condition can fire again after hp is restored above 0. -/
theorem c1_amended :
    (∀ (i : ℕ) (r : HitResult) (o : HitObject) (e : Engine),
      (processHit i r o e).failEvents = e.failEvents) ∧
    (∀ (t : ℚ) (e : Engine),
      (update t e).failEvents =
        e.failEvents + (if updateFailCond t e = true then 1 else 0)) := by
  constructor
  · exact processHit_failEvents
  · intro t e
    unfold update updateFailCond
    cases hr : e.isRunning with
    | false => simp [hr]
    | true =>
      cases hb : e.beatmap with
      | none => simp [hb]
      | some bm =>
        simp only [hr, hb, Bool.true_and, Bool.not_true, not_true, ite_false]
        rw [ite_endGame_failEvents, hpDrainPhase_failEvents, updatePhases_failEvents]
        simp [Bool.and_eq_true, decide_eq_true_eq, Bool.not_eq_true', and_assoc]

/-- C1 (counterexample): the claim fails on the code in two ways shown by one
concrete run (`bmHeavyDrain`, hpDrainRate 9600, one circle at 2000 ms): after
one frame hp = 4 with no fail signal; the next frame judges the circle `miss`,
whose -5 penalty clamps hp from 4 to 0, yet `onFail` is never invoked — the
fail count stays 0 even though hp transitioned from positive to 0. -/
theorem c1_counterexample :
    engDrained.gameState.hp = 4 ∧ engDrained.failEvents = 0 ∧
    engMissedToZero.gameState.hp = 0 ∧ engMissedToZero.gameState.missCount = 1 ∧
    engMissedToZero.failEvents = 0 := by
  with_unfolding_all decide

end GameEngine

namespace GameEngine

theorem foldl_pred {α : Type} (P : Engine → Prop) (f : Engine → α → Engine)
    (h : ∀ e a, P e → P (f e a)) :
    ∀ (l : List α) (e : Engine), P e → P (List.foldl f e l) := by
  intro l
  induction l with
  | nil => intro e hP; exact hP
  | cons a l ih =>
    intro e hP
    rw [List.foldl_cons]
    exact ih _ (h e a hP)

theorem moveSliderStep_shape (x y : ℚ) (e : Engine) (p : ℕ × ActiveSlider) :
    ∃ m, moveSliderStep x y e p = { e with activeSliders := m } := by
  unfold moveSliderStep
  dsimp only
  split_ifs <;> exact ⟨_, rfl⟩

theorem moveSpinnerStep_shape (ctx : MathCtx) (x y : ℚ) (e : Engine)
    (p : ℕ × ActiveSpinner) :
    ∃ m s, moveSpinnerStep ctx x y e p =
      { e with
        activeSpinners := m
        gameState := { e.gameState with score := s } } := by
  unfold moveSpinnerStep
  split
  · exact ⟨_, _, rfl⟩
  · dsimp only
    split_ifs <;> exact ⟨_, _, rfl⟩

theorem processHit_hp (i : ℕ) (r : HitResult) (o : HitObject) (e : Engine) :
    (processHit i r o e).gameState.hp =
      max 0 (min 100 (e.gameState.hp + hpChangeOf r)) := by
  cases r <;> rfl

theorem processHit_hp_bounds (i : ℕ) (r : HitResult) (o : HitObject) (e : Engine) :
    0 ≤ (processHit i r o e).gameState.hp ∧
      (processHit i r o e).gameState.hp ≤ 100 := by
  rw [processHit_hp]
  exact ⟨le_max_left 0 _, max_le (by norm_num) (min_le_left _ _)⟩

theorem activateSpinnerStep_hp (bm : Beatmap) (e : Engine) (i : ℕ)
    (h : 0 ≤ e.gameState.hp ∧ e.gameState.hp ≤ 100) :
    0 ≤ (activateSpinnerStep bm e i).gameState.hp ∧
      (activateSpinnerStep bm e i).gameState.hp ≤ 100 := by
  obtain ⟨m, hm⟩ := activateSpinnerStep_shape bm e i
  rw [hm]
  exact h

theorem missCheckStep_hp (bm : Beatmap) (e : Engine) (i : ℕ)
    (h : 0 ≤ e.gameState.hp ∧ e.gameState.hp ≤ 100) :
    0 ≤ (missCheckStep bm e i).gameState.hp ∧
      (missCheckStep bm e i).gameState.hp ≤ 100 := by
  unfold missCheckStep
  repeat' split
  all_goals try dsimp only
  all_goals try split_ifs
  all_goals first | exact h | exact processHit_hp_bounds _ _ _ _

theorem sliderFrameStep_hp (e : Engine) (p : ℕ × ActiveSlider)
    (h : 0 ≤ e.gameState.hp ∧ e.gameState.hp ≤ 100) :
    0 ≤ (sliderFrameStep e p).gameState.hp ∧
      (sliderFrameStep e p).gameState.hp ≤ 100 := by
  unfold sliderFrameStep
  dsimp only
  split_ifs
  · exact processHit_hp_bounds p.1 .great (HitObject.slider p.2.slider) _
  · exact processHit_hp_bounds p.1 .good (HitObject.slider p.2.slider) _
  · exact h

theorem spinnerFrameStep_hp (e : Engine) (p : ℕ × ActiveSpinner)
    (h : 0 ≤ e.gameState.hp ∧ e.gameState.hp ≤ 100) :
    0 ≤ (spinnerFrameStep e p).gameState.hp ∧
      (spinnerFrameStep e p).gameState.hp ≤ 100 := by
  unfold spinnerFrameStep
  dsimp only
  split_ifs
  · exact processHit_hp_bounds p.1 .perfect (HitObject.spinner p.2.spinner) _
  · exact processHit_hp_bounds p.1 .great (HitObject.spinner p.2.spinner) _
  · exact processHit_hp_bounds p.1 .miss (HitObject.spinner p.2.spinner) _
  · exact h

theorem updatePhases_hp (t : ℚ) (e : Engine)
    (h : 0 ≤ e.gameState.hp ∧ e.gameState.hp ≤ 100) :
    0 ≤ (updatePhases t e).gameState.hp ∧
      (updatePhases t e).gameState.hp ≤ 100 := by
  unfold updatePhases updateActiveSpinners updateActiveSliders
  refine foldl_pred _ _ (fun e' p h' => spinnerFrameStep_hp e' p h') _ _ ?_
  refine foldl_pred _ _ (fun e' p h' => sliderFrameStep_hp e' p h') _ _ ?_
  have h2 : ∀ e' : Engine, (0 ≤ e'.gameState.hp ∧ e'.gameState.hp ≤ 100) →
      0 ≤ (checkMissedObjects e').gameState.hp ∧
        (checkMissedObjects e').gameState.hp ≤ 100 := by
    intro e' h'
    unfold checkMissedObjects
    cases hb : e'.beatmap with
    | none => exact h'
    | some bm =>
      exact foldl_pred _ _ (fun e'' i h'' => missCheckStep_hp bm e'' i h'') _ _ h'
  refine h2 _ ?_
  unfold activateSpinners
  cases hb : (({ e with currentTime := t } : Engine)).beatmap with
  | none => exact h
  | some bm =>
    exact foldl_pred _ _ (fun e'' i h'' => activateSpinnerStep_hp bm e'' i h'') _ _ h

theorem timeMultiplierOf_nonneg (m : Mods) : 0 ≤ timeMultiplierOf m := by
  unfold timeMultiplierOf
  split_ifs <;> norm_num

theorem hpDrainPhase_hp (bm : Beatmap) (tm : ℚ) (e : Engine)
    (h1 : 0 ≤ bm.hpDrainRate) (h2 : 0 ≤ tm)
    (h : 0 ≤ e.gameState.hp ∧ e.gameState.hp ≤ 100) :
    0 ≤ (hpDrainPhase bm tm e).gameState.hp ∧
      (hpDrainPhase bm tm e).gameState.hp ≤ 100 := by
  have hr : 0 ≤ bm.hpDrainRate * (1/100) * tm :=
    mul_nonneg (mul_nonneg h1 (by norm_num)) h2
  unfold hpDrainPhase drainNewHp
  dsimp only
  split_ifs
  all_goals constructor
  all_goals dsimp only
  all_goals linarith [h.1, h.2]

end GameEngine

namespace GameEngine

theorem processHit_beatmap (i : ℕ) (r : HitResult) (o : HitObject) (e : Engine) :
    (processHit i r o e).beatmap = e.beatmap := by
  cases r <;> rfl

theorem activateSpinnerStep_beatmap (bm : Beatmap) (e : Engine) (i : ℕ) :
    (activateSpinnerStep bm e i).beatmap = e.beatmap := by
  obtain ⟨m, hm⟩ := activateSpinnerStep_shape bm e i
  rw [hm]

theorem missCheckStep_beatmap (bm : Beatmap) (e : Engine) (i : ℕ) :
    (missCheckStep bm e i).beatmap = e.beatmap := by
  unfold missCheckStep
  repeat' split
  all_goals try dsimp only
  all_goals try split_ifs
  all_goals simp [processHit_beatmap]

theorem sliderFrameStep_beatmap (e : Engine) (p : ℕ × ActiveSlider) :
    (sliderFrameStep e p).beatmap = e.beatmap := by
  unfold sliderFrameStep
  dsimp only
  split_ifs <;> simp [processHit_beatmap]

theorem spinnerFrameStep_beatmap (e : Engine) (p : ℕ × ActiveSpinner) :
    (spinnerFrameStep e p).beatmap = e.beatmap := by
  unfold spinnerFrameStep
  dsimp only
  split_ifs <;> simp [processHit_beatmap]

theorem activateSpinners_beatmap (e : Engine) :
    (activateSpinners e).beatmap = e.beatmap := by
  unfold activateSpinners
  cases hb : e.beatmap with
  | none => exact hb
  | some bm =>
    rw [foldl_pres (fun x => x.beatmap) (activateSpinnerStep bm)
      (fun e' i => activateSpinnerStep_beatmap bm e' i)
      (List.range bm.hitObjects.length) e]
    exact hb

theorem checkMissedObjects_beatmap (e : Engine) :
    (checkMissedObjects e).beatmap = e.beatmap := by
  unfold checkMissedObjects
  cases hb : e.beatmap with
  | none => exact hb
  | some bm =>
    rw [foldl_pres (fun x => x.beatmap) (missCheckStep bm)
      (fun e' i => missCheckStep_beatmap bm e' i)
      (List.range bm.hitObjects.length) e]
    exact hb

theorem updateActiveSliders_beatmap (e : Engine) :
    (updateActiveSliders e).beatmap = e.beatmap := by
  unfold updateActiveSliders
  exact foldl_pres (fun x => x.beatmap) sliderFrameStep
    (fun e' p => sliderFrameStep_beatmap e' p) e.activeSliders e

theorem updateActiveSpinners_beatmap (e : Engine) :
    (updateActiveSpinners e).beatmap = e.beatmap := by
  unfold updateActiveSpinners
  exact foldl_pres (fun x => x.beatmap) spinnerFrameStep
    (fun e' p => spinnerFrameStep_beatmap e' p) e.activeSpinners e

theorem updatePhases_beatmap (t : ℚ) (e : Engine) :
    (updatePhases t e).beatmap = e.beatmap := by
  unfold updatePhases
  rw [updateActiveSpinners_beatmap, updateActiveSliders_beatmap,
    checkMissedObjects_beatmap, activateSpinners_beatmap]

theorem hpDrainPhase_beatmap (bm : Beatmap) (tm : ℚ) (e : Engine) :
    (hpDrainPhase bm tm e).beatmap = e.beatmap := by
  unfold hpDrainPhase
  dsimp only
  split_ifs <;> rfl

theorem ite_endGame_beatmap (c1 c2 : Prop) [Decidable c1] [Decidable c2]
    (e : Engine) :
    (if c1 then endGame e else if c2 then endGame e else e).beatmap =
      e.beatmap := by
  split_ifs <;> rfl

theorem ite_endGame_gameState (c1 c2 : Prop) [Decidable c1] [Decidable c2]
    (e : Engine) :
    (if c1 then endGame e else if c2 then endGame e else e).gameState =
      e.gameState := by
  split_ifs <;> rfl

theorem update_beatmap (t : ℚ) (e : Engine) :
    (update t e).beatmap = e.beatmap := by
  unfold update
  cases hr : e.isRunning with
  | false => simp [hr]
  | true =>
    cases hb : e.beatmap with
    | none => simp only [hr, hb, not_true, ite_false]
    | some bm =>
      simp only [hr, hb, not_true, ite_false]
      rw [ite_endGame_beatmap, hpDrainPhase_beatmap, updatePhases_beatmap]
      exact hb

theorem clickScan_beatmap (ctx : MathCtx) (bm : Beatmap) (x y : ℚ) :
    ∀ (l : List ℕ) (e : Engine),
      (clickScan ctx bm x y e l).beatmap = e.beatmap := by
  intro l
  induction l with
  | nil => intro e; rfl
  | cons i rest ih =>
    intro e
    unfold clickScan
    repeat' split
    all_goals try dsimp only
    all_goals try split_ifs
    all_goals try (repeat' split)
    all_goals first | rfl | simp [ih, processHit_beatmap, addScore_eq]

theorem handleClick_beatmap (ctx : MathCtx) (x y : ℚ) (e : Engine) :
    (handleClick ctx x y e).beatmap = e.beatmap := by
  unfold handleClick
  cases hr : e.isRunning with
  | false => simp [hr]
  | true =>
    cases hb : e.beatmap with
    | none => simp only [hr, hb, not_true, ite_false]
    | some bm =>
      simp only [hr, hb, not_true, ite_false]
      rw [clickScan_beatmap]

theorem handleMouseMove_beatmap (ctx : MathCtx) (x y : ℚ) (e : Engine) :
    (handleMouseMove ctx x y e).beatmap = e.beatmap := by
  unfold handleMouseMove
  cases hr : e.isRunning with
  | false => simp [hr]
  | true =>
    simp only [hr, not_true, ite_false]
    rw [foldl_pres (fun x => x.beatmap) (moveSpinnerStep ctx x y) ?h2,
      foldl_pres (fun x => x.beatmap) (moveSliderStep x y) ?h1]
    case h1 =>
      intro e' p
      obtain ⟨m, hm⟩ := moveSliderStep_shape x y e' p
      rw [hm]
    case h2 =>
      intro e' p
      obtain ⟨m, s, hm⟩ := moveSpinnerStep_shape ctx x y e' p
      rw [hm]

theorem handleMouseUp_beatmap (e : Engine) :
    (handleMouseUp e).beatmap = e.beatmap := rfl

theorem start_beatmap (e : Engine) : (start e).beatmap = e.beatmap := by
  unfold start
  split_ifs <;> rfl

theorem stepAction_beatmap (ctx : MathCtx) (e : Engine) (a : Action) :
    (stepAction ctx e a).beatmap = e.beatmap := by
  cases a with
  | frame t => exact update_beatmap t e
  | click x y => exact handleClick_beatmap ctx x y e
  | move x y => exact handleMouseMove_beatmap ctx x y e
  | release => exact handleMouseUp_beatmap e
  | startRun => exact start_beatmap e
  | stopRun => rfl
  | pauseRun => rfl
  | resumeRun => rfl

end GameEngine

namespace GameEngine

theorem clickScan_hp (ctx : MathCtx) (bm : Beatmap) (x y : ℚ) :
    ∀ (l : List ℕ) (e : Engine),
      0 ≤ e.gameState.hp ∧ e.gameState.hp ≤ 100 →
      0 ≤ (clickScan ctx bm x y e l).gameState.hp ∧
        (clickScan ctx bm x y e l).gameState.hp ≤ 100 := by
  intro l
  induction l with
  | nil => intro e h; exact h
  | cons i rest ih =>
    intro e h
    rw [clickScan]
    cases hobj : bm.hitObjects.get? i with
    | none => exact ih e h
    | some obj =>
      dsimp only
      by_cases hmem : i ∈ e.processedObjects
      · rw [if_pos hmem]
        exact ih e h
      · rw [if_neg hmem]
        try dsimp only
        by_cases hw : |e.currentTime - obj.time| ≤ e.hitWindows.good
        · rw [if_pos hw]
          cases obj with
          | circle c =>
            try dsimp only
            by_cases hin : isPointInCircle x y c.x c.y e.circleRadius = true
            · rw [if_pos hin]
              exact processHit_hp_bounds i _ _ e
            · rw [if_neg hin]
              exact ih e h
          | slider s =>
            try dsimp only
            by_cases hin : isPointInCircle x y s.x s.y e.circleRadius = true
            · rw [if_pos hin]
              try dsimp only
              by_cases hmiss : getHitResult e.hitWindows
                  |e.currentTime - (HitObject.slider s).time| = HitResult.miss
              · rw [if_pos hmiss]
                exact h
              · rw [if_neg hmiss]
                exact h
            · rw [if_neg hin]
              exact ih e h
          | spinner sp =>
            try dsimp only
            by_cases hsp : e.currentTime ≥ sp.time ∧ e.currentTime ≤ sp.endTime
            · rw [if_pos hsp]
              try dsimp only
              by_cases hcont : AMap.contains e.activeSpinners i = true
              · rw [if_pos hcont]
                cases AMap.get? e.activeSpinners i <;> exact h
              · rw [if_neg hcont]
                cases AMap.get? (AMap.set e.activeSpinners i
                  (freshActiveSpinner sp)) i <;> exact h
            · rw [if_neg hsp]
              exact ih e h
        · rw [if_neg hw]
          exact ih e h

theorem handleClick_hp (ctx : MathCtx) (x y : ℚ) (e : Engine)
    (h : 0 ≤ e.gameState.hp ∧ e.gameState.hp ≤ 100) :
    0 ≤ (handleClick ctx x y e).gameState.hp ∧
      (handleClick ctx x y e).gameState.hp ≤ 100 := by
  unfold handleClick
  cases hr : e.isRunning with
  | false => simpa [hr] using h
  | true =>
    cases hb : e.beatmap with
    | none => simpa [hr, hb] using h
    | some bm =>
      simp only [hr, hb, not_true, ite_false]
      exact clickScan_hp ctx bm x y _ _ h

theorem handleMouseMove_hp (ctx : MathCtx) (x y : ℚ) (e : Engine)
    (h : 0 ≤ e.gameState.hp ∧ e.gameState.hp ≤ 100) :
    0 ≤ (handleMouseMove ctx x y e).gameState.hp ∧
      (handleMouseMove ctx x y e).gameState.hp ≤ 100 := by
  unfold handleMouseMove
  cases hr : e.isRunning with
  | false => simpa [hr] using h
  | true =>
    simp only [hr, not_true, ite_false]
    refine foldl_pred (fun x' => 0 ≤ x'.gameState.hp ∧ x'.gameState.hp ≤ 100)
      (moveSpinnerStep ctx x y) ?h2 _ _ ?_
    case h2 =>
      intro e' p h'
      obtain ⟨m, s, hm⟩ := moveSpinnerStep_shape ctx x y e' p
      rw [hm]
      exact h'
    refine foldl_pred (fun x' => 0 ≤ x'.gameState.hp ∧ x'.gameState.hp ≤ 100)
      (moveSliderStep x y) ?h1 _ _ ?_
    case h1 =>
      intro e' p h'
      obtain ⟨m, hm⟩ := moveSliderStep_shape x y e' p
      rw [hm]
      exact h'
    exact h

theorem start_hp (e : Engine)
    (h : 0 ≤ e.gameState.hp ∧ e.gameState.hp ≤ 100) :
    0 ≤ (start e).gameState.hp ∧ (start e).gameState.hp ≤ 100 := by
  unfold start
  split_ifs
  · exact h
  · constructor <;> norm_num [reset, createInitialState]

theorem update_hp (t : ℚ) (e : Engine)
    (hD : ∀ bm, e.beatmap = some bm → 0 ≤ bm.hpDrainRate)
    (h : 0 ≤ e.gameState.hp ∧ e.gameState.hp ≤ 100) :
    0 ≤ (update t e).gameState.hp ∧ (update t e).gameState.hp ≤ 100 := by
  unfold update
  cases hr : e.isRunning with
  | false => simpa [hr] using h
  | true =>
    cases hb : e.beatmap with
    | none => simpa [hr, hb] using h
    | some bm =>
      simp only [hr, hb, not_true, ite_false]
      rw [ite_endGame_gameState]
      exact hpDrainPhase_hp bm _ _ (hD bm hb) (timeMultiplierOf_nonneg _)
        (updatePhases_hp t e h)

theorem stepAction_hp (ctx : MathCtx) (e : Engine) (a : Action)
    (hD : ∀ bm, e.beatmap = some bm → 0 ≤ bm.hpDrainRate)
    (h : 0 ≤ e.gameState.hp ∧ e.gameState.hp ≤ 100) :
    0 ≤ (stepAction ctx e a).gameState.hp ∧
      (stepAction ctx e a).gameState.hp ≤ 100 := by
  cases a with
  | frame t => exact update_hp t e hD h
  | click x y => exact handleClick_hp ctx x y e h
  | move x y => exact handleMouseMove_hp ctx x y e h
  | release => exact h
  | startRun => exact start_hp e h
  | stopRun => exact h
  | pauseRun => exact h
  | resumeRun => exact h

/-- C9: starting from the initial state, hp stays within [0, 100] across any
sequence of frame advances and input events (judgements clamp their HP delta;
the per-frame drain clamps at 0), for any chart with a nonnegative
`hpDrainRate`. -/
theorem c9_hp_bounds : ∀ (ctx : MathCtx) (acts : List Action) (bm : Beatmap)
    (mods : Mods) (dur : ℚ), 0 ≤ bm.hpDrainRate →
    0 ≤ (runActions ctx (start (setMods mods (loadBeatmap bm (mkEngine dur))))
        acts).gameState.hp ∧
    (runActions ctx (start (setMods mods (loadBeatmap bm (mkEngine dur))))
        acts).gameState.hp ≤ 100 := by
  intro ctx acts bm mods dur hDrain
  have master : ∀ (e : Engine) (a : Action),
      ((∀ bm', e.beatmap = some bm' → 0 ≤ bm'.hpDrainRate) ∧
        (0 ≤ e.gameState.hp ∧ e.gameState.hp ≤ 100)) →
      ((∀ bm', (stepAction ctx e a).beatmap = some bm' → 0 ≤ bm'.hpDrainRate) ∧
        (0 ≤ (stepAction ctx e a).gameState.hp ∧
          (stepAction ctx e a).gameState.hp ≤ 100)) := by
    intro e a hQ
    refine ⟨?_, stepAction_hp ctx e a hQ.1 hQ.2⟩
    intro bm' hbm'
    rw [stepAction_beatmap] at hbm'
    exact hQ.1 bm' hbm'
  have init : (∀ bm', (start (setMods mods (loadBeatmap bm
        (mkEngine dur)))).beatmap = some bm' → 0 ≤ bm'.hpDrainRate) ∧
      (0 ≤ (start (setMods mods (loadBeatmap bm (mkEngine dur)))).gameState.hp ∧
        (start (setMods mods (loadBeatmap bm (mkEngine dur)))).gameState.hp ≤ 100) := by
    constructor
    · intro bm' hbm'
      have : (start (setMods mods (loadBeatmap bm (mkEngine dur)))).beatmap = some bm := by
        rw [start_beatmap]
        rfl
      rw [this] at hbm'
      cases hbm'
      exact hDrain
    · have hstart : (start (setMods mods (loadBeatmap bm
          (mkEngine dur)))).gameState.hp = 100 := rfl
      rw [hstart]
      norm_num
  exact (foldl_pred (fun x => (∀ bm', x.beatmap = some bm' → 0 ≤ bm'.hpDrainRate) ∧
    (0 ≤ x.gameState.hp ∧ x.gameState.hp ≤ 100)) (stepAction ctx)
    master acts _ init).2

end GameEngine

namespace GameEngine

theorem c9_hp_bounds_witness :
    (0:ℚ) ≤ bmOneCircle.hpDrainRate ∧
    0 ≤ (runActions ctx0 (start (setMods noMods (loadBeatmap bmOneCircle
        (mkEngine 1000000)))) [Action.frame 1200]).gameState.hp ∧
    (runActions ctx0 (start (setMods noMods (loadBeatmap bmOneCircle
        (mkEngine 1000000)))) [Action.frame 1200]).gameState.hp ≤ 100 :=
  ⟨by with_unfolding_all decide,
    (c9_hp_bounds ctx0 [Action.frame 1200] bmOneCircle noMods 1000000
      (by with_unfolding_all decide)).1,
    (c9_hp_bounds ctx0 [Action.frame 1200] bmOneCircle noMods 1000000
      (by with_unfolding_all decide)).2⟩

end GameEngine

namespace GameEngine

theorem mem_setAdd_iff (s : List ℕ) (i j : ℕ) :
    j ∈ setAdd s i ↔ j ∈ s ∨ j = i := by
  unfold setAdd
  split_ifs with h
  · constructor
    · exact fun hj => Or.inl hj
    · rintro (hj | rfl)
      · exact hj
      · exact h
  · simp [List.mem_append]

theorem mem_setAdd_self (s : List ℕ) (i : ℕ) : i ∈ setAdd s i :=
  (mem_setAdd_iff s i i).mpr (Or.inr rfl)

theorem mem_setAdd_of_mem (s : List ℕ) (i j : ℕ) (h : j ∈ s) : j ∈ setAdd s i :=
  (mem_setAdd_iff s i j).mpr (Or.inl h)

theorem not_mem_setAdd (s : List ℕ) (i j : ℕ) (h1 : j ∉ s) (h2 : j ≠ i) :
    j ∉ setAdd s i := by
  rw [mem_setAdd_iff]
  rintro (hj | rfl)
  · exact h1 hj
  · exact h2 rfl

theorem AMap.mem_keys_iff {α : Type} (m : AMap α) (k : ℕ) :
    k ∈ AMap.keys m ↔ ∃ v, (k, v) ∈ m := by
  unfold AMap.keys
  rw [List.mem_map]
  constructor
  · rintro ⟨⟨k', v⟩, hp, rfl⟩
    exact ⟨v, hp⟩
  · rintro ⟨v, hv⟩
    exact ⟨(k, v), hv, rfl⟩

theorem AMap.contains_iff_mem_keys {α : Type} (m : AMap α) (k : ℕ) :
    AMap.contains m k = true ↔ k ∈ AMap.keys m := by
  unfold AMap.contains
  rw [Option.isSome_iff_exists]
  constructor
  · rintro ⟨p, hp⟩
    have hmem := List.mem_of_find?_eq_some hp
    have hkey := List.find?_some hp
    rw [AMap.mem_keys_iff]
    rcases p with ⟨k', v⟩
    simp only [decide_eq_true_eq] at hkey
    subst hkey
    exact ⟨v, hmem⟩
  · intro hk
    rw [AMap.mem_keys_iff] at hk
    obtain ⟨v, hv⟩ := hk
    have : (List.find? (fun p => p.1 = k) m).isSome = true := by
      rw [List.find?_isSome]
      exact ⟨(k, v), hv, by simp⟩
    rw [Option.isSome_iff_exists] at this
    exact this

theorem AMap.keys_set_of_mem {α : Type} (m : AMap α) (k : ℕ) (v : α)
    (h : AMap.contains m k = true) :
    AMap.keys (AMap.set m k v) = AMap.keys m := by
  unfold AMap.set
  rw [if_pos h]
  unfold AMap.keys
  rw [List.map_map]
  apply List.map_congr_left
  intro p hp
  by_cases hk : p.1 = k
  · simp [Function.comp, hk]
  · simp [Function.comp, hk]

theorem AMap.keys_set_of_not_mem {α : Type} (m : AMap α) (k : ℕ) (v : α)
    (h : AMap.contains m k = false) :
    AMap.keys (AMap.set m k v) = AMap.keys m ++ [k] := by
  unfold AMap.set
  rw [if_neg (by simp [h])]
  unfold AMap.keys
  rw [List.map_append]
  rfl

theorem AMap.mem_set {α : Type} (m : AMap α) (k : ℕ) (v : α) (p : ℕ × α)
    (hp : p ∈ AMap.set m k v) : p ∈ m ∨ p = (k, v) := by
  unfold AMap.set at hp
  split_ifs at hp with h
  · rw [List.mem_map] at hp
    obtain ⟨q, hq, hqe⟩ := hp
    by_cases hk : q.1 = k
    · right
      rw [if_pos hk] at hqe
      exact hqe.symm
    · left
      rw [if_neg hk] at hqe
      exact hqe ▸ hq
  · rw [List.mem_append] at hp
    rcases hp with hp | hp
    · exact Or.inl hp
    · right
      simpa using hp

theorem AMap.mem_erase {α : Type} (m : AMap α) (k : ℕ) (p : ℕ × α)
    (hp : p ∈ AMap.erase m k) : p ∈ m ∧ ¬ p.1 = k := by
  unfold AMap.erase at hp
  rw [List.mem_filter] at hp
  exact ⟨hp.1, by simpa using hp.2⟩

theorem AMap.keys_erase {α : Type} (m : AMap α) (k : ℕ) :
    AMap.keys (AMap.erase m k) = (AMap.keys m).filter (fun j => ¬ j = k) := by
  unfold AMap.erase AMap.keys
  rw [List.filter_map]
  rfl

end GameEngine

namespace GameEngine

theorem processHit_judgeEvents (i : ℕ) (r : HitResult) (o : HitObject) (e : Engine) :
    (processHit i r o e).judgeEvents = e.judgeEvents ++ [(i, r)] := by
  cases r <;> rfl

theorem processHit_processedObjects (i : ℕ) (r : HitResult) (o : HitObject)
    (e : Engine) :
    (processHit i r o e).processedObjects = setAdd e.processedObjects i := by
  cases r <;> rfl

theorem processHit_activeSliders (i : ℕ) (r : HitResult) (o : HitObject) (e : Engine) :
    (processHit i r o e).activeSliders = e.activeSliders := by
  cases r <;> rfl

theorem processHit_activeSpinners (i : ℕ) (r : HitResult) (o : HitObject) (e : Engine) :
    (processHit i r o e).activeSpinners = e.activeSpinners := by
  cases r <;> rfl

theorem processHit_currentTime (i : ℕ) (r : HitResult) (o : HitObject) (e : Engine) :
    (processHit i r o e).currentTime = e.currentTime := by
  cases r <;> rfl

theorem processHit_hitWindows (i : ℕ) (r : HitResult) (o : HitObject) (e : Engine) :
    (processHit i r o e).hitWindows = e.hitWindows := by
  cases r <;> rfl

theorem judgeEventsFor_processHit_ne (i j : ℕ) (r : HitResult) (o : HitObject)
    (e : Engine) (h : ¬ j = i) :
    judgeEventsFor j (processHit i r o e) = judgeEventsFor j e := by
  unfold judgeEventsFor
  rw [processHit_judgeEvents, List.filter_append]
  have hnil : List.filter (fun p => decide (p.1 = j)) [(i, r)] = [] := by
    simp [Ne.symm, h]
  rw [hnil, List.append_nil]

theorem judgeEventsFor_processHit_self (i : ℕ) (r : HitResult) (o : HitObject)
    (e : Engine) :
    judgeEventsFor i (processHit i r o e) = judgeEventsFor i e ++ [(i, r)] := by
  unfold judgeEventsFor
  rw [processHit_judgeEvents, List.filter_append]
  congr 1
  simp

theorem countJudge_processHit_ne (i j : ℕ) (r : HitResult) (o : HitObject)
    (e : Engine) (h : ¬ j = i) :
    countJudge j (processHit i r o e) = countJudge j e := by
  unfold countJudge
  rw [judgeEventsFor_processHit_ne i j r o e h]

theorem TrackerInv_processHit (i : ℕ) (r : HitResult) (o : HitObject) (e : Engine)
    (hInv : TrackerInv e)
    (hs : i ∉ AMap.keys e.activeSliders)
    (hsp : i ∉ AMap.keys e.activeSpinners) :
    TrackerInv (processHit i r o e) := by
  obtain ⟨h1, h2, h3, h4⟩ := hInv
  refine ⟨?_, ?_, ?_, ?_⟩
  · rw [processHit_activeSliders]
    exact h1
  · rw [processHit_activeSpinners]
    exact h2
  · rw [processHit_activeSliders]
    intro p hp
    obtain ⟨hne, bm, s, hbm, hget⟩ := h3 p hp
    refine ⟨?_, bm, s, ?_, hget⟩
    · rw [processHit_processedObjects]
      refine not_mem_setAdd _ _ _ hne ?_
      intro hpi
      apply hs
      rw [AMap.mem_keys_iff]
      exact ⟨p.2, by rw [← hpi]; exact hp⟩
    · rw [processHit_beatmap]
      exact hbm
  · rw [processHit_activeSpinners]
    intro p hp
    obtain ⟨hne, bm, sp, hbm, hget⟩ := h4 p hp
    refine ⟨?_, bm, sp, ?_, hget⟩
    · rw [processHit_processedObjects]
      refine not_mem_setAdd _ _ _ hne ?_
      intro hpi
      apply hsp
      rw [AMap.mem_keys_iff]
      exact ⟨p.2, by rw [← hpi]; exact hp⟩
    · rw [processHit_beatmap]
      exact hbm

end GameEngine

namespace GameEngine

theorem slider_key_conditions (e : Engine) (hInv : TrackerInv e) (i : ℕ)
    (hi : i ∈ AMap.keys e.activeSliders) :
    i ∉ e.processedObjects ∧ ∃ bm s, e.beatmap = some bm ∧
      bm.hitObjects.get? i = some (HitObject.slider s) := by
  obtain ⟨v, hv⟩ := (AMap.mem_keys_iff _ _).mp hi
  exact hInv.2.2.1 (i, v) hv

theorem spinner_key_conditions (e : Engine) (hInv : TrackerInv e) (i : ℕ)
    (hi : i ∈ AMap.keys e.activeSpinners) :
    i ∉ e.processedObjects ∧ ∃ bm sp, e.beatmap = some bm ∧
      bm.hitObjects.get? i = some (HitObject.spinner sp) := by
  obtain ⟨v, hv⟩ := (AMap.mem_keys_iff _ _).mp hi
  exact hInv.2.2.2 (i, v) hv

theorem slider_spinner_key_ne (e : Engine) (hInv : TrackerInv e) (i j : ℕ)
    (hi : i ∈ AMap.keys e.activeSliders) (hj : j ∈ AMap.keys e.activeSpinners) :
    ¬ i = j := by
  intro hij
  subst hij
  obtain ⟨-, bm1, s, hb1, hg1⟩ := slider_key_conditions e hInv i hi
  obtain ⟨-, bm2, sp, hb2, hg2⟩ := spinner_key_conditions e hInv i hj
  rw [hb1] at hb2
  injection hb2 with hb
  subst hb
  rw [hg1] at hg2
  simp at hg2

theorem circle_key_not_slider (e : Engine) (hInv : TrackerInv e) (bm : Beatmap)
    (hbm : e.beatmap = some bm) (i : ℕ) (c : HitCircle)
    (hobj : bm.hitObjects.get? i = some (HitObject.circle c)) :
    i ∉ AMap.keys e.activeSliders := by
  intro hi
  obtain ⟨-, bm', s, hb', hg'⟩ := slider_key_conditions e hInv i hi
  rw [hbm] at hb'
  injection hb' with hb
  subst hb
  rw [hobj] at hg'
  simp at hg'

theorem circle_key_not_spinner (e : Engine) (hInv : TrackerInv e) (bm : Beatmap)
    (hbm : e.beatmap = some bm) (i : ℕ) (c : HitCircle)
    (hobj : bm.hitObjects.get? i = some (HitObject.circle c)) :
    i ∉ AMap.keys e.activeSpinners := by
  intro hi
  obtain ⟨-, bm', sp, hb', hg'⟩ := spinner_key_conditions e hInv i hi
  rw [hbm] at hb'
  injection hb' with hb
  subst hb
  rw [hobj] at hg'
  simp at hg'

theorem slider_key_not_spinner (e : Engine) (hInv : TrackerInv e) (bm : Beatmap)
    (hbm : e.beatmap = some bm) (i : ℕ) (s : Slider)
    (hobj : bm.hitObjects.get? i = some (HitObject.slider s)) :
    i ∉ AMap.keys e.activeSpinners := by
  intro hi
  obtain ⟨-, bm', sp, hb', hg'⟩ := spinner_key_conditions e hInv i hi
  rw [hbm] at hb'
  injection hb' with hb
  subst hb
  rw [hobj] at hg'
  simp at hg'

theorem spinner_key_not_slider (e : Engine) (hInv : TrackerInv e) (bm : Beatmap)
    (hbm : e.beatmap = some bm) (i : ℕ) (sp : Spinner)
    (hobj : bm.hitObjects.get? i = some (HitObject.spinner sp)) :
    i ∉ AMap.keys e.activeSliders := by
  intro hi
  obtain ⟨-, bm', s, hb', hg'⟩ := slider_key_conditions e hInv i hi
  rw [hbm] at hb'
  injection hb' with hb
  subst hb
  rw [hobj] at hg'
  simp at hg'

theorem processHit_frozen (i j : ℕ) (r : HitResult) (o : HitObject) (e : Engine)
    (hi : i ∉ e.processedObjects) (hj : j ∈ e.processedObjects) :
    j ∈ (processHit i r o e).processedObjects ∧
      countJudge j (processHit i r o e) = countJudge j e := by
  constructor
  · rw [processHit_processedObjects]
    exact mem_setAdd_of_mem _ _ _ hj
  · refine countJudge_processHit_ne i j r o e ?_
    intro hji
    subst hji
    exact hi hj

theorem missCheckStep_ok (bm : Beatmap) (e : Engine) (i : ℕ)
    (hbm : e.beatmap = some bm) (hInv : TrackerInv e) :
    TrackerInv (missCheckStep bm e i) ∧
    (∀ j, j ∈ e.processedObjects →
      j ∈ (missCheckStep bm e i).processedObjects ∧
      countJudge j (missCheckStep bm e i) = countJudge j e) := by
  unfold missCheckStep
  cases hobj : bm.hitObjects.get? i with
  | none => exact ⟨hInv, fun j hj => ⟨hj, rfl⟩⟩
  | some obj =>
    dsimp only
    by_cases hmem : i ∈ e.processedObjects
    · rw [if_pos hmem]
      exact ⟨hInv, fun j hj => ⟨hj, rfl⟩⟩
    · rw [if_neg hmem]
      try dsimp only
      cases obj with
      | circle c =>
        try dsimp only
        by_cases ht : e.currentTime > (HitObject.circle c).time + e.hitWindows.good
        · rw [if_pos ht]
          refine ⟨TrackerInv_processHit _ _ _ _ hInv
            (circle_key_not_slider e hInv bm hbm i c hobj)
            (circle_key_not_spinner e hInv bm hbm i c hobj),
            fun j hj => processHit_frozen i j _ _ e hmem hj⟩
        · rw [if_neg ht]
          exact ⟨hInv, fun j hj => ⟨hj, rfl⟩⟩
      | slider s =>
        try dsimp only
        by_cases ht : e.currentTime > s.time + s.duration + e.hitWindows.good ∧
          ¬ AMap.contains e.activeSliders i = true
        · rw [if_pos ht]
          have hks : i ∉ AMap.keys e.activeSliders := by
            intro hk
            exact ht.2 ((AMap.contains_iff_mem_keys _ _).mpr hk)
          refine ⟨TrackerInv_processHit _ _ _ _ hInv hks
            (slider_key_not_spinner e hInv bm hbm i s hobj),
            fun j hj => processHit_frozen i j _ _ e hmem hj⟩
        · rw [if_neg ht]
          exact ⟨hInv, fun j hj => ⟨hj, rfl⟩⟩
      | spinner sp =>
        try dsimp only
        by_cases ht : e.currentTime > sp.endTime ∧
          ¬ AMap.contains e.activeSpinners i = true
        · rw [if_pos ht]
          have hks : i ∉ AMap.keys e.activeSpinners := by
            intro hk
            exact ht.2 ((AMap.contains_iff_mem_keys _ _).mpr hk)
          refine ⟨TrackerInv_processHit _ _ _ _ hInv
            (spinner_key_not_slider e hInv bm hbm i sp hobj) hks,
            fun j hj => processHit_frozen i j _ _ e hmem hj⟩
        · rw [if_neg ht]
          exact ⟨hInv, fun j hj => ⟨hj, rfl⟩⟩

end GameEngine

namespace GameEngine

theorem TrackerInv_set_spinner_fresh (e : Engine) (hInv : TrackerInv e)
    (bm : Beatmap) (hbm : e.beatmap = some bm) (i : ℕ) (sp : Spinner)
    (hobj : bm.hitObjects.get? i = some (HitObject.spinner sp))
    (hmem : i ∉ e.processedObjects)
    (hcont : AMap.contains e.activeSpinners i = false) (a : ActiveSpinner) :
    TrackerInv { e with activeSpinners := AMap.set e.activeSpinners i a } := by
  obtain ⟨h1, h2, h3, h4⟩ := hInv
  refine ⟨h1, ?_, h3, ?_⟩
  · rw [AMap.keys_set_of_not_mem _ _ _ hcont]
    rw [List.nodup_append]
    refine ⟨h2, List.nodup_singleton i, ?_⟩
    intro k hk hk'
    rw [List.mem_singleton] at hk'
    subst hk'
    exact (by simpa [hcont] using (AMap.contains_iff_mem_keys e.activeSpinners k).mpr hk)
  · intro p hp
    rcases AMap.mem_set _ _ _ _ hp with hp' | rfl
    · exact h4 p hp'
    · exact ⟨hmem, bm, sp, hbm, hobj⟩

theorem activateSpinnerStep_ok (bm : Beatmap) (e : Engine) (i : ℕ)
    (hbm : e.beatmap = some bm) (hInv : TrackerInv e) :
    TrackerInv (activateSpinnerStep bm e i) ∧
    (activateSpinnerStep bm e i).processedObjects = e.processedObjects ∧
    (activateSpinnerStep bm e i).judgeEvents = e.judgeEvents := by
  unfold activateSpinnerStep
  cases hobj : bm.hitObjects.get? i with
  | none => exact ⟨hInv, rfl, rfl⟩
  | some obj =>
    cases obj with
    | circle c => exact ⟨hInv, rfl, rfl⟩
    | slider s => exact ⟨hInv, rfl, rfl⟩
    | spinner sp =>
      dsimp only
      by_cases hmem : i ∈ e.processedObjects
      · rw [if_pos hmem]
        exact ⟨hInv, rfl, rfl⟩
      · rw [if_neg hmem]
        by_cases hcont : AMap.contains e.activeSpinners i = true
        · rw [if_pos hcont]
          exact ⟨hInv, rfl, rfl⟩
        · rw [if_neg hcont]
          by_cases htime : e.currentTime ≥ sp.time ∧ e.currentTime ≤ sp.endTime
          · rw [if_pos htime]
            refine ⟨TrackerInv_set_spinner_fresh e hInv bm hbm i sp hobj hmem
              (by simpa using hcont) _, rfl, rfl⟩
          · rw [if_neg htime]
            exact ⟨hInv, rfl, rfl⟩

end GameEngine

namespace GameEngine

theorem TrackerInv_set_slider_inplace (e : Engine) (hInv : TrackerInv e) (k : ℕ)
    (hk : k ∈ AMap.keys e.activeSliders) (a : ActiveSlider) :
    TrackerInv { e with activeSliders := AMap.set e.activeSliders k a } ∧
    AMap.keys (AMap.set e.activeSliders k a) = AMap.keys e.activeSliders := by
  have hkeq : AMap.keys (AMap.set e.activeSliders k a) = AMap.keys e.activeSliders :=
    AMap.keys_set_of_mem _ _ _ ((AMap.contains_iff_mem_keys _ _).mpr hk)
  obtain ⟨h1, h2, h3, h4⟩ := hInv
  refine ⟨⟨?_, h2, ?_, h4⟩, hkeq⟩
  · rw [hkeq]
    exact h1
  · intro p hp
    rcases AMap.mem_set _ _ _ _ hp with hp' | rfl
    · exact h3 p hp'
    · exact slider_key_conditions e ⟨h1, h2, h3, h4⟩ k hk

theorem sliderFrameStep_ok (e : Engine) (p : ℕ × ActiveSlider)
    (hInv : TrackerInv e) (hkey : p.1 ∈ AMap.keys e.activeSliders) :
    TrackerInv (sliderFrameStep e p) ∧
    (∀ j, j ∈ e.processedObjects →
      j ∈ (sliderFrameStep e p).processedObjects ∧
      countJudge j (sliderFrameStep e p) = countJudge j e) ∧
    (∀ k, k ∈ AMap.keys e.activeSliders → ¬ k = p.1 →
      k ∈ AMap.keys (sliderFrameStep e p).activeSliders) ∧
    (sliderFrameStep e p).beatmap = e.beatmap := by
  obtain ⟨hp1notproc, bmp, sp', hbmp, hgetp⟩ := slider_key_conditions e hInv p.1 hkey
  unfold sliderFrameStep
  dsimp only
  obtain ⟨hinp, hkeq⟩ := TrackerInv_set_slider_inplace e hInv p.1 hkey
    { p.2 with progress := min 1 ((e.currentTime - p.2.slider.time) / p.2.slider.duration) }
  by_cases hprog : min 1 ((e.currentTime - p.2.slider.time) / p.2.slider.duration) ≥ 1
  · rw [if_pos hprog]
    obtain ⟨hi1, hi2, hi3, hi4⟩ := hinp
    constructor
    · refine ⟨?_, ?_, ?_, ?_⟩
      · rw [processHit_activeSliders, AMap.keys_erase]
        exact List.Nodup.filter _ hi1
      · rw [processHit_activeSpinners]
        exact hi2
      · intro q hq
        rw [processHit_activeSliders] at hq
        obtain ⟨hq', hqne⟩ := AMap.mem_erase _ _ _ hq
        obtain ⟨hqproc, bmq, sq, hbmq, hgetq⟩ := hi3 q hq'
        refine ⟨?_, bmq, sq, ?_, hgetq⟩
        · rw [processHit_processedObjects]
          exact not_mem_setAdd _ _ _ hqproc hqne
        · rw [processHit_beatmap]
          exact hbmq
      · intro q hq
        rw [processHit_activeSpinners] at hq
        obtain ⟨hqproc, bmq, sq, hbmq, hgetq⟩ := hi4 q hq
        refine ⟨?_, bmq, sq, ?_, hgetq⟩
        · rw [processHit_processedObjects]
          refine not_mem_setAdd _ _ _ hqproc ?_
          intro hqp
          have hqk : q.1 ∈ AMap.keys e.activeSpinners := by
            rw [AMap.mem_keys_iff]
            exact ⟨q.2, hq⟩
          exact slider_spinner_key_ne e hInv p.1 q.1 hkey hqk hqp.symm
        · rw [processHit_beatmap]
          exact hbmq
    constructor
    · intro j hj
      have hfro := processHit_frozen p.1 j
        (if (p.2.ticksHit : ℚ) ≥ p.2.slider.tickCount * (1/2) then HitResult.great
          else HitResult.good)
        (HitObject.slider p.2.slider)
        { e with
          activeSliders := AMap.set e.activeSliders p.1
            { p.2 with
              progress := min 1 ((e.currentTime - p.2.slider.time) /
                p.2.slider.duration) } }
        hp1notproc hj
      exact hfro
    constructor
    · intro k hk hkne
      rw [processHit_activeSliders, AMap.keys_erase, List.mem_filter]
      constructor
      · rw [hkeq]
        exact hk
      · simpa using hkne
    · rw [processHit_beatmap]
  · rw [if_neg hprog]
    refine ⟨hinp, fun j hj => ⟨hj, rfl⟩, ?_, rfl⟩
    intro k hk hkne
    rw [hkeq]
    exact hk

end GameEngine

namespace GameEngine

theorem spinnerFrameStep_ok (e : Engine) (p : ℕ × ActiveSpinner)
    (hInv : TrackerInv e) (hkey : p.1 ∈ AMap.keys e.activeSpinners) :
    TrackerInv (spinnerFrameStep e p) ∧
    (∀ j, j ∈ e.processedObjects →
      j ∈ (spinnerFrameStep e p).processedObjects ∧
      countJudge j (spinnerFrameStep e p) = countJudge j e) ∧
    (∀ k, k ∈ AMap.keys e.activeSpinners → ¬ k = p.1 →
      k ∈ AMap.keys (spinnerFrameStep e p).activeSpinners) ∧
    (spinnerFrameStep e p).beatmap = e.beatmap := by
  obtain ⟨hp1notproc, bmp, spp, hbmp, hgetp⟩ := spinner_key_conditions e hInv p.1 hkey
  unfold spinnerFrameStep
  dsimp only
  by_cases htime : e.currentTime ≥ p.2.spinner.endTime
  · rw [if_pos htime]
    obtain ⟨hi1, hi2, hi3, hi4⟩ := hInv
    constructor
    · refine ⟨?_, ?_, ?_, ?_⟩
      · rw [processHit_activeSliders]
        exact hi1
      · rw [processHit_activeSpinners, AMap.keys_erase]
        exact List.Nodup.filter _ hi2
      · intro q hq
        rw [processHit_activeSliders] at hq
        obtain ⟨hqproc, bmq, sq, hbmq, hgetq⟩ := hi3 q hq
        refine ⟨?_, bmq, sq, ?_, hgetq⟩
        · rw [processHit_processedObjects]
          refine not_mem_setAdd _ _ _ hqproc ?_
          intro hqp
          have hqk : q.1 ∈ AMap.keys e.activeSliders := by
            rw [AMap.mem_keys_iff]
            exact ⟨q.2, hq⟩
          exact slider_spinner_key_ne e ⟨hi1, hi2, hi3, hi4⟩ q.1 p.1 hqk hkey hqp
        · rw [processHit_beatmap]
          exact hbmq
      · intro q hq
        rw [processHit_activeSpinners] at hq
        obtain ⟨hq', hqne⟩ := AMap.mem_erase _ _ _ hq
        obtain ⟨hqproc, bmq, sq, hbmq, hgetq⟩ := hi4 q hq'
        refine ⟨?_, bmq, sq, ?_, hgetq⟩
        · rw [processHit_processedObjects]
          exact not_mem_setAdd _ _ _ hqproc hqne
        · rw [processHit_beatmap]
          exact hbmq
    constructor
    · intro j hj
      have hfro := processHit_frozen p.1 j
        (if p.2.spinsCompleted ≥ (p.2.requiredSpins : ℚ) then HitResult.perfect
          else if p.2.spinsCompleted ≥ (p.2.requiredSpins : ℚ) * (1/2) then HitResult.great
          else HitResult.miss)
        (HitObject.spinner p.2.spinner) e hp1notproc hj
      exact hfro
    constructor
    · intro k hk hkne
      rw [processHit_activeSpinners, AMap.keys_erase, List.mem_filter]
      refine ⟨hk, by simpa using hkne⟩
    · rw [processHit_beatmap]
  · rw [if_neg htime]
    exact ⟨hInv, fun j hj => ⟨hj, rfl⟩, fun k hk _ => hk, rfl⟩

end GameEngine

namespace GameEngine

theorem checkFold_ok (bm : Beatmap) (l : List ℕ) :
    ∀ (e : Engine), e.beatmap = some bm → TrackerInv e →
      TrackerInv (List.foldl (missCheckStep bm) e l) ∧
      (List.foldl (missCheckStep bm) e l).beatmap = some bm ∧
      (∀ j, j ∈ e.processedObjects →
        j ∈ (List.foldl (missCheckStep bm) e l).processedObjects ∧
        countJudge j (List.foldl (missCheckStep bm) e l) = countJudge j e) := by
  induction l with
  | nil => exact fun e hbm hInv => ⟨hInv, hbm, fun j hj => ⟨hj, rfl⟩⟩
  | cons i rest ih =>
    intro e hbm hInv
    rw [List.foldl_cons]
    obtain ⟨hInv', hfro⟩ := missCheckStep_ok bm e i hbm hInv
    have hbm' : (missCheckStep bm e i).beatmap = some bm := by
      rw [missCheckStep_beatmap]
      exact hbm
    obtain ⟨H1, H2, H3⟩ := ih (missCheckStep bm e i) hbm' hInv'
    refine ⟨H1, H2, ?_⟩
    intro j hj
    obtain ⟨hj1, hc1⟩ := hfro j hj
    obtain ⟨hj2, hc2⟩ := H3 j hj1
    exact ⟨hj2, by rw [hc2, hc1]⟩

theorem activateFold_ok (bm : Beatmap) (l : List ℕ) :
    ∀ (e : Engine), e.beatmap = some bm → TrackerInv e →
      TrackerInv (List.foldl (activateSpinnerStep bm) e l) ∧
      (List.foldl (activateSpinnerStep bm) e l).beatmap = some bm ∧
      (List.foldl (activateSpinnerStep bm) e l).processedObjects =
        e.processedObjects ∧
      (List.foldl (activateSpinnerStep bm) e l).judgeEvents = e.judgeEvents := by
  induction l with
  | nil => exact fun e hbm hInv => ⟨hInv, hbm, rfl, rfl⟩
  | cons i rest ih =>
    intro e hbm hInv
    rw [List.foldl_cons]
    obtain ⟨hInv', hp', hje'⟩ := activateSpinnerStep_ok bm e i hbm hInv
    have hbm' : (activateSpinnerStep bm e i).beatmap = some bm := by
      rw [activateSpinnerStep_beatmap]
      exact hbm
    obtain ⟨H1, H2, H3, H4⟩ := ih (activateSpinnerStep bm e i) hbm' hInv'
    exact ⟨H1, H2, by rw [H3, hp'], by rw [H4, hje']⟩

theorem sliderFold_ok (l : List (ℕ × ActiveSlider)) :
    ∀ (e : Engine), TrackerInv e →
      (∀ p ∈ l, p.1 ∈ AMap.keys e.activeSliders) →
      (List.map (fun p => p.1) l).Nodup →
      TrackerInv (List.foldl sliderFrameStep e l) ∧
      (List.foldl sliderFrameStep e l).beatmap = e.beatmap ∧
      (∀ j, j ∈ e.processedObjects →
        j ∈ (List.foldl sliderFrameStep e l).processedObjects ∧
        countJudge j (List.foldl sliderFrameStep e l) = countJudge j e) := by
  induction l with
  | nil => exact fun e hInv _ _ => ⟨hInv, rfl, fun j hj => ⟨hj, rfl⟩⟩
  | cons p rest ih =>
    intro e hInv hmem hnd
    rw [List.foldl_cons]
    have hp : p.1 ∈ AMap.keys e.activeSliders := hmem p (List.mem_cons_self p rest)
    obtain ⟨hInv', hfro', hkeys', hbm'⟩ := sliderFrameStep_ok e p hInv hp
    rw [List.map_cons, List.nodup_cons] at hnd
    have hmem' : ∀ q ∈ rest, q.1 ∈ AMap.keys (sliderFrameStep e p).activeSliders := by
      intro q hq
      refine hkeys' q.1 (hmem q (List.mem_cons_of_mem p hq)) ?_
      intro hqp
      exact hnd.1 (hqp ▸ List.mem_map_of_mem (fun p' => p'.1) hq)
    obtain ⟨H1, H2, H3⟩ := ih (sliderFrameStep e p) hInv' hmem' hnd.2
    refine ⟨H1, by rw [H2, hbm'], ?_⟩
    intro j hj
    obtain ⟨hj1, hc1⟩ := hfro' j hj
    obtain ⟨hj2, hc2⟩ := H3 j hj1
    exact ⟨hj2, by rw [hc2, hc1]⟩

theorem spinnerFold_ok (l : List (ℕ × ActiveSpinner)) :
    ∀ (e : Engine), TrackerInv e →
      (∀ p ∈ l, p.1 ∈ AMap.keys e.activeSpinners) →
      (List.map (fun p => p.1) l).Nodup →
      TrackerInv (List.foldl spinnerFrameStep e l) ∧
      (List.foldl spinnerFrameStep e l).beatmap = e.beatmap ∧
      (∀ j, j ∈ e.processedObjects →
        j ∈ (List.foldl spinnerFrameStep e l).processedObjects ∧
        countJudge j (List.foldl spinnerFrameStep e l) = countJudge j e) := by
  induction l with
  | nil => exact fun e hInv _ _ => ⟨hInv, rfl, fun j hj => ⟨hj, rfl⟩⟩
  | cons p rest ih =>
    intro e hInv hmem hnd
    rw [List.foldl_cons]
    have hp : p.1 ∈ AMap.keys e.activeSpinners := hmem p (List.mem_cons_self p rest)
    obtain ⟨hInv', hfro', hkeys', hbm'⟩ := spinnerFrameStep_ok e p hInv hp
    rw [List.map_cons, List.nodup_cons] at hnd
    have hmem' : ∀ q ∈ rest, q.1 ∈ AMap.keys (spinnerFrameStep e p).activeSpinners := by
      intro q hq
      refine hkeys' q.1 (hmem q (List.mem_cons_of_mem p hq)) ?_
      intro hqp
      exact hnd.1 (hqp ▸ List.mem_map_of_mem (fun p' => p'.1) hq)
    obtain ⟨H1, H2, H3⟩ := ih (spinnerFrameStep e p) hInv' hmem' hnd.2
    refine ⟨H1, by rw [H2, hbm'], ?_⟩
    intro j hj
    obtain ⟨hj1, hc1⟩ := hfro' j hj
    obtain ⟨hj2, hc2⟩ := H3 j hj1
    exact ⟨hj2, by rw [hc2, hc1]⟩

end GameEngine

namespace GameEngine

theorem updatePhases_ok (t : ℚ) (e : Engine) (bm : Beatmap)
    (hbm : e.beatmap = some bm) (hInv : TrackerInv e) :
    TrackerInv (updatePhases t e) ∧
    (updatePhases t e).beatmap = some bm ∧
    (∀ j, j ∈ e.processedObjects →
      j ∈ (updatePhases t e).processedObjects ∧
      countJudge j (updatePhases t e) = countJudge j e) := by
  unfold updatePhases
  have hInv0 : TrackerInv ({ e with currentTime := t } : Engine) := hInv
  have hbm0 : ({ e with currentTime := t } : Engine).beatmap = some bm := hbm
  have step1 : activateSpinners { e with currentTime := t } =
      List.foldl (activateSpinnerStep bm) { e with currentTime := t }
        (List.range bm.hitObjects.length) := by
    unfold activateSpinners
    rw [hbm0]
  obtain ⟨hI1, hB1, hP1, hJ1⟩ := activateFold_ok bm
    (List.range bm.hitObjects.length) { e with currentTime := t } hbm0 hInv0
  rw [← step1] at hI1 hB1 hP1 hJ1
  have step2 : checkMissedObjects (activateSpinners { e with currentTime := t }) =
      List.foldl (missCheckStep bm) (activateSpinners { e with currentTime := t })
        (List.range bm.hitObjects.length) := by
    unfold checkMissedObjects
    rw [hB1]
  obtain ⟨hI2, hB2, hF2⟩ := checkFold_ok bm (List.range bm.hitObjects.length)
    (activateSpinners { e with currentTime := t }) hB1 hI1
  rw [← step2] at hI2 hB2 hF2
  set E2 := checkMissedObjects (activateSpinners { e with currentTime := t })
  have step3 : updateActiveSliders E2 = List.foldl sliderFrameStep E2 E2.activeSliders := rfl
  obtain ⟨hI3, hB3, hF3⟩ := sliderFold_ok E2.activeSliders E2 hI2
    (fun p hp => (AMap.mem_keys_iff _ _).mpr ⟨p.2, hp⟩) hI2.1
  rw [← step3] at hI3 hB3 hF3
  set E3 := updateActiveSliders E2
  have step4 : updateActiveSpinners E3 = List.foldl spinnerFrameStep E3 E3.activeSpinners := rfl
  obtain ⟨hI4, hB4, hF4⟩ := spinnerFold_ok E3.activeSpinners E3 hI3
    (fun p hp => (AMap.mem_keys_iff _ _).mpr ⟨p.2, hp⟩) hI3.2.1
  rw [← step4] at hI4 hB4 hF4
  refine ⟨hI4, by rw [hB4, hB3, hB2], ?_⟩
  intro j hj
  have hj0 : j ∈ ({ e with currentTime := t } : Engine).processedObjects := hj
  have hj1 : j ∈ (activateSpinners { e with currentTime := t }).processedObjects := by
    rw [hP1]
    exact hj0
  obtain ⟨hj2, hc2⟩ := hF2 j hj1
  obtain ⟨hj3, hc3⟩ := hF3 j hj2
  obtain ⟨hj4, hc4⟩ := hF4 j hj3
  refine ⟨hj4, ?_⟩
  rw [hc4, hc3, hc2]
  unfold countJudge judgeEventsFor
  rw [hJ1]

end GameEngine

namespace GameEngine

theorem hpDrainPhase_shape (bm : Beatmap) (tm : ℚ) (e : Engine) :
    ∃ gs fc, hpDrainPhase bm tm e =
      { e with gameState := gs, failEvents := fc } := by
  unfold hpDrainPhase
  dsimp only
  split_ifs <;> exact ⟨_, _, rfl⟩

theorem update_ok (t : ℚ) (e : Engine) (hInv : TrackerInv e) :
    TrackerInv (update t e) ∧
    (∀ j, j ∈ e.processedObjects →
      j ∈ (update t e).processedObjects ∧
      countJudge j (update t e) = countJudge j e) := by
  unfold update
  cases hr : e.isRunning with
  | false =>
    simp only [hr, Bool.not_false, ite_true]
    exact ⟨hInv, fun j hj => ⟨hj, by trivial⟩⟩
  | true =>
    cases hb : e.beatmap with
    | none =>
      simp only [hr, hb, not_true, ite_false]
      exact ⟨hInv, fun j hj => ⟨hj, by trivial⟩⟩
    | some bm =>
      simp only [hr, hb, not_true, ite_false]
      obtain ⟨hI, hB, hF⟩ := updatePhases_ok t e bm hb hInv
      obtain ⟨gs, fc, hshape⟩ := hpDrainPhase_shape bm
        (timeMultiplierOf (updatePhases t e).mods) (updatePhases t e)
      rw [hshape]
      split_ifs <;> exact ⟨hI, fun j hj => hF j hj⟩

theorem AMap.mem_keys_set_self {α : Type} (m : AMap α) (k : ℕ) (v : α) :
    k ∈ AMap.keys (AMap.set m k v) := by
  by_cases h : AMap.contains m k = true
  · rw [AMap.keys_set_of_mem _ _ _ h]
    exact (AMap.contains_iff_mem_keys _ _).mp h
  · rw [AMap.keys_set_of_not_mem _ _ _ (by simpa using h)]
    simp

theorem TrackerInv_set_spinner_inplace (e : Engine) (hInv : TrackerInv e) (k : ℕ)
    (hk : k ∈ AMap.keys e.activeSpinners) (a : ActiveSpinner) :
    TrackerInv { e with activeSpinners := AMap.set e.activeSpinners k a } ∧
    AMap.keys (AMap.set e.activeSpinners k a) = AMap.keys e.activeSpinners := by
  have hkeq : AMap.keys (AMap.set e.activeSpinners k a) = AMap.keys e.activeSpinners :=
    AMap.keys_set_of_mem _ _ _ ((AMap.contains_iff_mem_keys _ _).mpr hk)
  obtain ⟨h1, h2, h3, h4⟩ := hInv
  refine ⟨⟨h1, ?_, h3, ?_⟩, hkeq⟩
  · rw [hkeq]
    exact h2
  · intro p hp
    rcases AMap.mem_set _ _ _ _ hp with hp' | rfl
    · exact h4 p hp'
    · exact spinner_key_conditions e ⟨h1, h2, h3, h4⟩ k hk

theorem TrackerInv_set_slider_fresh (e : Engine) (hInv : TrackerInv e)
    (bm : Beatmap) (hbm : e.beatmap = some bm) (i : ℕ) (s : Slider)
    (hobj : bm.hitObjects.get? i = some (HitObject.slider s))
    (hmem : i ∉ e.processedObjects)
    (hcont : AMap.contains e.activeSliders i = false) (a : ActiveSlider) :
    TrackerInv { e with activeSliders := AMap.set e.activeSliders i a } := by
  obtain ⟨h1, h2, h3, h4⟩ := hInv
  refine ⟨?_, h2, ?_, h4⟩
  · rw [AMap.keys_set_of_not_mem _ _ _ hcont]
    rw [List.nodup_append]
    refine ⟨h1, List.nodup_singleton i, ?_⟩
    intro k hk hk'
    rw [List.mem_singleton] at hk'
    subst hk'
    exact (by simpa [hcont] using (AMap.contains_iff_mem_keys e.activeSliders k).mpr hk)
  · intro p hp
    rcases AMap.mem_set _ _ _ _ hp with hp' | rfl
    · exact h3 p hp'
    · exact ⟨hmem, bm, s, hbm, hobj⟩

end GameEngine

namespace GameEngine

theorem clickScan_ok (ctx : MathCtx) (bm : Beatmap) (x y : ℚ) :
    ∀ (l : List ℕ) (e : Engine), e.beatmap = some bm → TrackerInv e →
      TrackerInv (clickScan ctx bm x y e l) ∧
      (∀ j, j ∈ e.processedObjects →
        j ∈ (clickScan ctx bm x y e l).processedObjects ∧
        countJudge j (clickScan ctx bm x y e l) = countJudge j e) := by
  intro l
  induction l with
  | nil => exact fun e _ hInv => ⟨hInv, fun j hj => ⟨hj, rfl⟩⟩
  | cons i rest ih =>
    intro e hbm hInv
    rw [clickScan]
    cases hobj : bm.hitObjects.get? i with
    | none => exact ih e hbm hInv
    | some obj =>
      dsimp only
      by_cases hmem : i ∈ e.processedObjects
      · rw [if_pos hmem]
        exact ih e hbm hInv
      · rw [if_neg hmem]
        try dsimp only
        by_cases hw : |e.currentTime - obj.time| ≤ e.hitWindows.good
        · rw [if_pos hw]
          cases obj with
          | circle c =>
            try dsimp only
            by_cases hin : isPointInCircle x y c.x c.y e.circleRadius = true
            · rw [if_pos hin]
              refine ⟨TrackerInv_processHit _ _ _ _ hInv
                (circle_key_not_slider e hInv bm hbm i c hobj)
                (circle_key_not_spinner e hInv bm hbm i c hobj),
                fun j hj => processHit_frozen i j _ _ e hmem hj⟩
            · rw [if_neg hin]
              exact ih e hbm hInv
          | slider s =>
            try dsimp only
            by_cases hin : isPointInCircle x y s.x s.y e.circleRadius = true
            · rw [if_pos hin]
              try dsimp only
              by_cases hmiss : getHitResult e.hitWindows
                  |e.currentTime - (HitObject.slider s).time| = HitResult.miss
              · rw [if_pos hmiss]
                exact ⟨hInv, fun j hj => ⟨hj, rfl⟩⟩
              · rw [if_neg hmiss]
                try dsimp only
                by_cases hcont : AMap.contains e.activeSliders i = true
                · have hI1 := (TrackerInv_set_slider_inplace e hInv i
                    ((AMap.contains_iff_mem_keys _ _).mp hcont)
                    { slider := s, progress := 0, ticksHit := 1, isHeld := true,
                      startHit := true }).1
                  exact ⟨hI1, fun j hj => ⟨hj, rfl⟩⟩
                · have hI1 := TrackerInv_set_slider_fresh e hInv bm hbm i s hobj hmem
                    (by simpa using hcont)
                    { slider := s, progress := 0, ticksHit := 1, isHeld := true,
                      startHit := true }
                  exact ⟨hI1, fun j hj => ⟨hj, rfl⟩⟩
            · rw [if_neg hin]
              exact ih e hbm hInv
          | spinner sp =>
            try dsimp only
            by_cases hsp : e.currentTime ≥ sp.time ∧ e.currentTime ≤ sp.endTime
            · rw [if_pos hsp]
              try dsimp only
              by_cases hcont : AMap.contains e.activeSpinners i = true
              · rw [if_pos hcont]
                cases hget : AMap.get? e.activeSpinners i with
                | none => exact ⟨hInv, fun j hj => ⟨hj, rfl⟩⟩
                | some a =>
                  have hI1 := (TrackerInv_set_spinner_inplace e hInv i
                    ((AMap.contains_iff_mem_keys _ _).mp hcont)
                    { a with lastAngle := some (ctx.atan2 (y - 192) (x - 256)) }).1
                  exact ⟨hI1, fun j hj => ⟨hj, rfl⟩⟩
              · rw [if_neg hcont]
                have hIfresh := TrackerInv_set_spinner_fresh e hInv bm hbm i sp hobj
                  hmem (by simpa using hcont) (freshActiveSpinner sp)
                cases hget : AMap.get? (AMap.set e.activeSpinners i
                    (freshActiveSpinner sp)) i with
                | none => exact ⟨hIfresh, fun j hj => ⟨hj, rfl⟩⟩
                | some a =>
                  have hI1 := (TrackerInv_set_spinner_inplace
                    { e with
                      activeSpinners := AMap.set e.activeSpinners i (freshActiveSpinner sp) }
                    hIfresh i (AMap.mem_keys_set_self _ _ _)
                    { a with lastAngle := some (ctx.atan2 (y - 192) (x - 256)) }).1
                  exact ⟨hI1, fun j hj => ⟨hj, rfl⟩⟩
            · rw [if_neg hsp]
              exact ih e hbm hInv
        · rw [if_neg hw]
          exact ih e hbm hInv

end GameEngine

namespace GameEngine

theorem handleClick_ok (ctx : MathCtx) (x y : ℚ) (e : Engine) (hInv : TrackerInv e) :
    TrackerInv (handleClick ctx x y e) ∧
    (∀ j, j ∈ e.processedObjects →
      j ∈ (handleClick ctx x y e).processedObjects ∧
      countJudge j (handleClick ctx x y e) = countJudge j e) := by
  unfold handleClick
  cases hr : e.isRunning with
  | false =>
    simp only [hr, Bool.not_false, ite_true]
    exact ⟨hInv, fun j hj => ⟨hj, by trivial⟩⟩
  | true =>
    cases hb : e.beatmap with
    | none =>
      simp only [eq_self_iff_true, not_true, ite_false]
      exact ⟨hInv, fun j hj => ⟨hj, by trivial⟩⟩
    | some bm =>
      simp only [eq_self_iff_true, not_true, ite_false]
      try dsimp only
      have hInv1 : TrackerInv
          { e with
            beatmap := some bm
            isRunning := true
            replayFrames := e.replayFrames ++
              [{ time := e.currentTime, x := x, y := y, keys := 1 }] } := by
        obtain ⟨h1, h2, h3, h4⟩ := hInv
        refine ⟨h1, h2, ?_, ?_⟩
        · intro p hp
          obtain ⟨hnp, bm', s, hbm', hg⟩ := h3 p hp
          rw [hb] at hbm'
          injection hbm' with hbmeq
          subst hbmeq
          exact ⟨hnp, _, s, rfl, hg⟩
        · intro p hp
          obtain ⟨hnp, bm', s, hbm', hg⟩ := h4 p hp
          rw [hb] at hbm'
          injection hbm' with hbmeq
          subst hbmeq
          exact ⟨hnp, _, s, rfl, hg⟩
      obtain ⟨g1, g2⟩ := clickScan_ok ctx bm x y (List.range bm.hitObjects.length)
        { e with
          beatmap := some bm
          isRunning := true
          replayFrames := e.replayFrames ++
            [{ time := e.currentTime, x := x, y := y, keys := 1 }] }
        rfl hInv1
      exact ⟨g1, fun j hj => g2 j hj⟩

theorem moveSliderStep_ok (x y : ℚ) (e : Engine) (p : ℕ × ActiveSlider)
    (hInv : TrackerInv e) (hkey : p.1 ∈ AMap.keys e.activeSliders) :
    TrackerInv (moveSliderStep x y e p) ∧
    AMap.keys (moveSliderStep x y e p).activeSliders = AMap.keys e.activeSliders ∧
    (moveSliderStep x y e p).activeSpinners = e.activeSpinners ∧
    (moveSliderStep x y e p).processedObjects = e.processedObjects ∧
    (moveSliderStep x y e p).judgeEvents = e.judgeEvents ∧
    (moveSliderStep x y e p).beatmap = e.beatmap := by
  unfold moveSliderStep
  dsimp only
  split_ifs
  · obtain ⟨hI, hK⟩ := TrackerInv_set_slider_inplace e hInv p.1 hkey
      { p.2 with ticksHit := p.2.ticksHit + 1 }
    exact ⟨hI, hK, rfl, rfl, rfl, rfl⟩
  · obtain ⟨hI, hK⟩ := TrackerInv_set_slider_inplace e hInv p.1 hkey
      { p.2 with isHeld := false }
    exact ⟨hI, hK, rfl, rfl, rfl, rfl⟩
  · exact ⟨hInv, rfl, rfl, rfl, rfl, rfl⟩

theorem moveSpinnerStep_ok (ctx : MathCtx) (x y : ℚ) (e : Engine)
    (p : ℕ × ActiveSpinner) (hInv : TrackerInv e)
    (hkey : p.1 ∈ AMap.keys e.activeSpinners) :
    TrackerInv (moveSpinnerStep ctx x y e p) ∧
    AMap.keys (moveSpinnerStep ctx x y e p).activeSpinners =
      AMap.keys e.activeSpinners ∧
    (moveSpinnerStep ctx x y e p).activeSliders = e.activeSliders ∧
    (moveSpinnerStep ctx x y e p).processedObjects = e.processedObjects ∧
    (moveSpinnerStep ctx x y e p).judgeEvents = e.judgeEvents ∧
    (moveSpinnerStep ctx x y e p).beatmap = e.beatmap := by
  unfold moveSpinnerStep
  cases p.2.lastAngle with
  | none =>
    dsimp only
    obtain ⟨hI, hK⟩ := TrackerInv_set_spinner_inplace e hInv p.1 hkey
      { p.2 with lastAngle := some (ctx.atan2 (y - 192) (x - 256)) }
    exact ⟨hI, hK, rfl, rfl, rfl, rfl⟩
  | some la =>
    dsimp only
    split_ifs
    all_goals
      refine ⟨(TrackerInv_set_spinner_inplace e hInv p.1 hkey _).1,
        (TrackerInv_set_spinner_inplace e hInv p.1 hkey _).2, rfl, rfl, rfl, rfl⟩

end GameEngine

namespace GameEngine

theorem moveSliderFold_ok (x y : ℚ) (l : List (ℕ × ActiveSlider)) :
    ∀ (e : Engine), TrackerInv e →
      (∀ p ∈ l, p.1 ∈ AMap.keys e.activeSliders) →
      TrackerInv (List.foldl (moveSliderStep x y) e l) ∧
      AMap.keys (List.foldl (moveSliderStep x y) e l).activeSliders =
        AMap.keys e.activeSliders ∧
      (List.foldl (moveSliderStep x y) e l).activeSpinners = e.activeSpinners ∧
      (List.foldl (moveSliderStep x y) e l).processedObjects = e.processedObjects ∧
      (List.foldl (moveSliderStep x y) e l).judgeEvents = e.judgeEvents ∧
      (List.foldl (moveSliderStep x y) e l).beatmap = e.beatmap := by
  induction l with
  | nil => exact fun e hInv _ => ⟨hInv, rfl, rfl, rfl, rfl, rfl⟩
  | cons p rest ih =>
    intro e hInv hmem
    rw [List.foldl_cons]
    have hp : p.1 ∈ AMap.keys e.activeSliders := hmem p (List.mem_cons_self p rest)
    obtain ⟨hI, hK, hSp, hP, hJ, hB⟩ := moveSliderStep_ok x y e p hInv hp
    have hmem' : ∀ q ∈ rest, q.1 ∈ AMap.keys (moveSliderStep x y e p).activeSliders := by
      intro q hq
      rw [hK]
      exact hmem q (List.mem_cons_of_mem p hq)
    obtain ⟨H1, H2, H3, H4, H5, H6⟩ := ih (moveSliderStep x y e p) hI hmem'
    exact ⟨H1, by rw [H2, hK], by rw [H3, hSp], by rw [H4, hP],
      by rw [H5, hJ], by rw [H6, hB]⟩

theorem moveSpinnerFold_ok (ctx : MathCtx) (x y : ℚ) (l : List (ℕ × ActiveSpinner)) :
    ∀ (e : Engine), TrackerInv e →
      (∀ p ∈ l, p.1 ∈ AMap.keys e.activeSpinners) →
      TrackerInv (List.foldl (moveSpinnerStep ctx x y) e l) ∧
      (List.foldl (moveSpinnerStep ctx x y) e l).processedObjects =
        e.processedObjects ∧
      (List.foldl (moveSpinnerStep ctx x y) e l).judgeEvents = e.judgeEvents := by
  induction l with
  | nil => exact fun e hInv _ => ⟨hInv, rfl, rfl⟩
  | cons p rest ih =>
    intro e hInv hmem
    rw [List.foldl_cons]
    have hp : p.1 ∈ AMap.keys e.activeSpinners := hmem p (List.mem_cons_self p rest)
    obtain ⟨hI, hK, hSl, hP, hJ, hB⟩ := moveSpinnerStep_ok ctx x y e p hInv hp
    have hmem' : ∀ q ∈ rest,
        q.1 ∈ AMap.keys (moveSpinnerStep ctx x y e p).activeSpinners := by
      intro q hq
      rw [hK]
      exact hmem q (List.mem_cons_of_mem p hq)
    obtain ⟨H1, H2, H3⟩ := ih (moveSpinnerStep ctx x y e p) hI hmem'
    exact ⟨H1, by rw [H2, hP], by rw [H3, hJ]⟩

theorem handleMouseMove_ok (ctx : MathCtx) (x y : ℚ) (e : Engine)
    (hInv : TrackerInv e) :
    TrackerInv (handleMouseMove ctx x y e) ∧
    (∀ j, j ∈ e.processedObjects →
      j ∈ (handleMouseMove ctx x y e).processedObjects ∧
      countJudge j (handleMouseMove ctx x y e) = countJudge j e) := by
  unfold handleMouseMove
  cases hr : e.isRunning with
  | false =>
    simp only [hr, Bool.not_false, ite_true]
    exact ⟨hInv, fun j hj => ⟨hj, by trivial⟩⟩
  | true =>
    simp only [eq_self_iff_true, not_true, ite_false]
    try dsimp only
    have hInv1 : TrackerInv
        ({ e with isRunning := true, lastMousePos := (x, y) } : Engine) := hInv
    obtain ⟨H1, H2, H3, H4, H5, H6⟩ := moveSliderFold_ok x y
      ({ e with isRunning := true, lastMousePos := (x, y) } : Engine).activeSliders
      { e with isRunning := true, lastMousePos := (x, y) } hInv1
      (fun p hp => (AMap.mem_keys_iff _ _).mpr ⟨p.2, hp⟩)
    obtain ⟨G1, G2, G3⟩ := moveSpinnerFold_ok ctx x y
      (List.foldl (moveSliderStep x y)
        { e with isRunning := true, lastMousePos := (x, y) }
        ({ e with isRunning := true, lastMousePos := (x, y) } : Engine).activeSliders).activeSpinners
      (List.foldl (moveSliderStep x y)
        { e with isRunning := true, lastMousePos := (x, y) }
        ({ e with isRunning := true, lastMousePos := (x, y) } : Engine).activeSliders)
      H1 (fun p hp => (AMap.mem_keys_iff _ _).mpr ⟨p.2, hp⟩)
    refine ⟨G1, fun j hj => ⟨?_, ?_⟩⟩
    · rw [G2, H4]
      exact hj
    · unfold countJudge judgeEventsFor
      rw [G3, H5]

theorem handleMouseUp_ok (e : Engine) (hInv : TrackerInv e) :
    TrackerInv (handleMouseUp e) ∧
    (handleMouseUp e).processedObjects = e.processedObjects ∧
    (handleMouseUp e).judgeEvents = e.judgeEvents := by
  obtain ⟨h1, h2, h3, h4⟩ := hInv
  refine ⟨⟨?_, h2, ?_, h4⟩, rfl, rfl⟩
  · unfold handleMouseUp AMap.keys
    dsimp only
    rw [List.map_map]
    exact h1
  · unfold handleMouseUp
    intro p hp
    dsimp only at hp
    rw [List.mem_map] at hp
    obtain ⟨q, hq, rfl⟩ := hp
    exact h3 q hq

theorem start_ok (e : Engine) (hInv : TrackerInv e) : TrackerInv (start e) := by
  unfold start
  split_ifs
  · exact hInv
  · unfold reset
    exact ⟨List.nodup_nil, List.nodup_nil,
      fun p hp => absurd hp (List.not_mem_nil p),
      fun p hp => absurd hp (List.not_mem_nil p)⟩

theorem stepAction_ok (ctx : MathCtx) (e : Engine) (a : Action)
    (hInv : TrackerInv e) :
    TrackerInv (stepAction ctx e a) ∧
    (¬ a = Action.startRun →
      ∀ j, j ∈ e.processedObjects →
        j ∈ (stepAction ctx e a).processedObjects ∧
        countJudge j (stepAction ctx e a) = countJudge j e) := by
  cases a with
  | frame t =>
    obtain ⟨h1, h2⟩ := update_ok t e hInv
    exact ⟨h1, fun _ => h2⟩
  | click x y =>
    obtain ⟨h1, h2⟩ := handleClick_ok ctx x y e hInv
    exact ⟨h1, fun _ => h2⟩
  | move x y =>
    obtain ⟨h1, h2⟩ := handleMouseMove_ok ctx x y e hInv
    exact ⟨h1, fun _ => h2⟩
  | release =>
    obtain ⟨h1, h2, h3⟩ := handleMouseUp_ok e hInv
    refine ⟨h1, fun _ j hj => ⟨?_, ?_⟩⟩
    · show j ∈ (handleMouseUp e).processedObjects
      rw [h2]
      exact hj
    · show countJudge j (handleMouseUp e) = countJudge j e
      unfold countJudge judgeEventsFor
      rw [h3]
  | startRun =>
    exact ⟨start_ok e hInv, fun hne => absurd rfl hne⟩
  | stopRun => exact ⟨hInv, fun _ j hj => ⟨hj, rfl⟩⟩
  | pauseRun => exact ⟨hInv, fun _ j hj => ⟨hj, rfl⟩⟩
  | resumeRun => exact ⟨hInv, fun _ j hj => ⟨hj, rfl⟩⟩

end GameEngine

namespace GameEngine

/-- `e'` extends `e`: the `onJudgement` log of `e'` is the log of `e` with
some (possibly empty) suffix of further invocations appended.  Every engine
operation only ever appends to this log. -/
def JEExt (e e' : Engine) : Prop :=
  ∃ tl, e'.judgeEvents = e.judgeEvents ++ tl

theorem JEExt.rfl (e : Engine) : JEExt e e :=
  ⟨[], (List.append_nil _).symm⟩

theorem JEExt.trans {e1 e2 e3 : Engine} (h1 : JEExt e1 e2) (h2 : JEExt e2 e3) :
    JEExt e1 e3 := by
  obtain ⟨t1, h1⟩ := h1
  obtain ⟨t2, h2⟩ := h2
  exact ⟨t1 ++ t2, by rw [h2, h1, List.append_assoc]⟩

theorem JEExt_of_eq {e e' : Engine} (h : e'.judgeEvents = e.judgeEvents) :
    JEExt e e' :=
  ⟨[], by rw [h, List.append_nil]⟩

theorem JEExt_foldl {α : Type} (f : Engine → α → Engine)
    (h : ∀ e a, JEExt e (f e a)) (l : List α) :
    ∀ e, JEExt e (List.foldl f e l) := by
  induction l with
  | nil => exact fun e => JEExt.rfl e
  | cons a rest ih =>
    intro e
    rw [List.foldl_cons]
    exact (h e a).trans (ih (f e a))

/-- If the log of `e'` extends that of `e` and object `j` has the same number
of judgements in both, then `j`'s judgement lists coincide. -/
theorem judgeEventsFor_eq_of_ext (e e' : Engine) (j : ℕ)
    (hext : JEExt e e') (hc : countJudge j e' = countJudge j e) :
    judgeEventsFor j e' = judgeEventsFor j e := by
  obtain ⟨tl, htl⟩ := hext
  have hsplit : judgeEventsFor j e' =
      judgeEventsFor j e ++ List.filter (fun p => decide (p.1 = j)) tl := by
    unfold judgeEventsFor
    rw [htl, List.filter_append]
  have hlen : (List.filter (fun p => decide (p.1 = j)) tl).length = 0 := by
    have := hc
    unfold countJudge at this
    rw [hsplit, List.length_append] at this
    omega
  rw [hsplit, List.length_eq_zero.mp hlen, List.append_nil]

theorem JEExt_processHit (i : ℕ) (r : HitResult) (o : HitObject) (e : Engine) :
    JEExt e (processHit i r o e) :=
  ⟨[(i, r)], processHit_judgeEvents i r o e⟩

/-- A record wrapper around a `processHit` of a record wrapper extends the
judgement log, as long as neither wrapper touches it. -/
theorem JEExt_processHit_then {e : Engine} (i : ℕ) (r : HitResult)
    (o : HitObject) (mid e' : Engine)
    (h2 : e'.judgeEvents = (processHit i r o mid).judgeEvents)
    (h1 : mid.judgeEvents = e.judgeEvents) : JEExt e e' :=
  ⟨[(i, r)], by rw [h2, processHit_judgeEvents, h1]⟩

theorem JEExt_addScore (b : ℚ) (c : Bool) (e : Engine) :
    JEExt e (addScore b c e) :=
  JEExt_of_eq rfl

theorem JEExt_missCheckStep (bm : Beatmap) (e : Engine) (i : ℕ) :
    JEExt e (missCheckStep bm e i) := by
  unfold missCheckStep
  cases bm.hitObjects.get? i with
  | none => exact JEExt.rfl e
  | some obj =>
    dsimp only
    by_cases hmem : i ∈ e.processedObjects
    · rw [if_pos hmem]
      exact JEExt.rfl e
    · rw [if_neg hmem]
      cases obj <;> dsimp only <;> split_ifs <;>
        first
          | exact JEExt.rfl e
          | exact JEExt_processHit _ _ _ e

theorem JEExt_activateSpinnerStep (bm : Beatmap) (e : Engine) (i : ℕ) :
    JEExt e (activateSpinnerStep bm e i) := by
  unfold activateSpinnerStep
  cases bm.hitObjects.get? i with
  | none => exact JEExt.rfl e
  | some obj =>
    cases obj <;> try exact JEExt.rfl e
    dsimp only
    split_ifs <;> first | exact JEExt.rfl e | exact JEExt_of_eq rfl

theorem JEExt_sliderFrameStep (e : Engine) (p : ℕ × ActiveSlider) :
    JEExt e (sliderFrameStep e p) := by
  unfold sliderFrameStep
  dsimp only
  split_ifs
  · exact JEExt_processHit_then p.1 HitResult.great
      (HitObject.slider p.2.slider) _ _ rfl rfl
  · exact JEExt_processHit_then p.1 HitResult.good
      (HitObject.slider p.2.slider) _ _ rfl rfl
  · exact JEExt_of_eq rfl

theorem JEExt_spinnerFrameStep (e : Engine) (p : ℕ × ActiveSpinner) :
    JEExt e (spinnerFrameStep e p) := by
  unfold spinnerFrameStep
  dsimp only
  split_ifs
  · exact JEExt_processHit_then p.1 HitResult.perfect
      (HitObject.spinner p.2.spinner) _ _ rfl rfl
  · exact JEExt_processHit_then p.1 HitResult.great
      (HitObject.spinner p.2.spinner) _ _ rfl rfl
  · exact JEExt_processHit_then p.1 HitResult.miss
      (HitObject.spinner p.2.spinner) _ _ rfl rfl
  · exact JEExt.rfl e

end GameEngine

namespace GameEngine

theorem missCheckStep_currentTime (bm : Beatmap) (e : Engine) (i : ℕ) :
    (missCheckStep bm e i).currentTime = e.currentTime := by
  unfold missCheckStep
  cases bm.hitObjects.get? i with
  | none => rfl
  | some obj =>
    dsimp only
    by_cases hmem : i ∈ e.processedObjects
    · rw [if_pos hmem]
    · rw [if_neg hmem]
      cases obj <;> dsimp only <;> split_ifs <;>
        first | rfl | rw [processHit_currentTime]

theorem missCheckStep_hitWindows (bm : Beatmap) (e : Engine) (i : ℕ) :
    (missCheckStep bm e i).hitWindows = e.hitWindows := by
  unfold missCheckStep
  cases bm.hitObjects.get? i with
  | none => rfl
  | some obj =>
    dsimp only
    by_cases hmem : i ∈ e.processedObjects
    · rw [if_pos hmem]
    · rw [if_neg hmem]
      cases obj <;> dsimp only <;> split_ifs <;>
        first | rfl | rw [processHit_hitWindows]

theorem missCheckStep_processed_shape (bm : Beatmap) (e : Engine) (i : ℕ) :
    (missCheckStep bm e i).processedObjects = e.processedObjects ∨
    (missCheckStep bm e i).processedObjects = setAdd e.processedObjects i := by
  unfold missCheckStep
  cases bm.hitObjects.get? i with
  | none => exact Or.inl rfl
  | some obj =>
    dsimp only
    by_cases hmem : i ∈ e.processedObjects
    · rw [if_pos hmem]
      exact Or.inl rfl
    · rw [if_neg hmem]
      cases obj <;> dsimp only <;> split_ifs <;>
        first
          | exact Or.inl rfl
          | exact Or.inr (processHit_processedObjects _ _ _ _)

theorem missCheckStep_events_ne (bm : Beatmap) (e : Engine) (i j : ℕ)
    (h : ¬ j = i) :
    judgeEventsFor j (missCheckStep bm e i) = judgeEventsFor j e := by
  unfold missCheckStep
  cases bm.hitObjects.get? i with
  | none => rfl
  | some obj =>
    dsimp only
    by_cases hmem : i ∈ e.processedObjects
    · rw [if_pos hmem]
    · rw [if_neg hmem]
      cases obj <;> dsimp only <;> split_ifs <;>
        first | rfl | rw [judgeEventsFor_processHit_ne _ _ _ _ _ h]

end GameEngine

namespace GameEngine

theorem activateSpinnerStep_currentTime (bm : Beatmap) (e : Engine) (i : ℕ) :
    (activateSpinnerStep bm e i).currentTime = e.currentTime := by
  obtain ⟨m, hm⟩ := activateSpinnerStep_shape bm e i
  rw [hm]

theorem activateSpinnerStep_hitWindows (bm : Beatmap) (e : Engine) (i : ℕ) :
    (activateSpinnerStep bm e i).hitWindows = e.hitWindows := by
  obtain ⟨m, hm⟩ := activateSpinnerStep_shape bm e i
  rw [hm]

/-- If the timeout sweep visits an eligible unhit circle, it judges it `miss`
exactly once during the sweep, marks it processed, and keeps the tracker
invariant. -/
theorem checkFold_fires (bm : Beatmap) (i : ℕ) (c : HitCircle)
    (hobj : bm.hitObjects.get? i = some (HitObject.circle c)) :
    ∀ (l : List ℕ) (e : Engine), e.beatmap = some bm → TrackerInv e →
      i ∈ l → i ∉ e.processedObjects →
      e.currentTime > c.time + e.hitWindows.good →
      judgeEventsFor i (List.foldl (missCheckStep bm) e l) =
        judgeEventsFor i e ++ [(i, HitResult.miss)] ∧
      i ∈ (List.foldl (missCheckStep bm) e l).processedObjects ∧
      TrackerInv (List.foldl (missCheckStep bm) e l) ∧
      (List.foldl (missCheckStep bm) e l).beatmap = some bm := by
  intro l
  induction l with
  | nil =>
    intro e _ _ hmem
    exact absurd hmem (List.not_mem_nil i)
  | cons j rest ih =>
    intro e hbm hInv hmem hi ht
    rw [List.foldl_cons]
    by_cases hji : j = i
    · subst hji
      have hstep : missCheckStep bm e j =
          processHit j HitResult.miss (HitObject.circle c) e := by
        unfold missCheckStep
        rw [hobj]
        dsimp only
        rw [if_neg hi]
        try dsimp only
        rw [if_pos (show e.currentTime >
          (HitObject.circle c).time + e.hitWindows.good from ht)]
      rw [hstep]
      have hmem' : j ∈ (processHit j HitResult.miss (HitObject.circle c) e).processedObjects := by
        rw [processHit_processedObjects]
        exact mem_setAdd_self _ _
      have hInv' : TrackerInv (processHit j HitResult.miss (HitObject.circle c) e) :=
        TrackerInv_processHit _ _ _ _ hInv
          (circle_key_not_slider e hInv bm hbm j c hobj)
          (circle_key_not_spinner e hInv bm hbm j c hobj)
      have hbm' : (processHit j HitResult.miss (HitObject.circle c) e).beatmap = some bm := by
        rw [processHit_beatmap]
        exact hbm
      obtain ⟨H1, H2, H3⟩ := checkFold_ok bm rest
        (processHit j HitResult.miss (HitObject.circle c) e) hbm' hInv'
      obtain ⟨hj2, hc2⟩ := H3 j hmem'
      have hext : JEExt (processHit j HitResult.miss (HitObject.circle c) e)
          (List.foldl (missCheckStep bm)
            (processHit j HitResult.miss (HitObject.circle c) e) rest) :=
        JEExt_foldl (missCheckStep bm) (fun e' a => JEExt_missCheckStep bm e' a)
          rest _
      refine ⟨?_, hj2, H1, H2⟩
      rw [judgeEventsFor_eq_of_ext _ _ j hext hc2, judgeEventsFor_processHit_self]
    · have hbm' : (missCheckStep bm e j).beatmap = some bm := by
        rw [missCheckStep_beatmap]
        exact hbm
      have hInv' := (missCheckStep_ok bm e j hbm hInv).1
      have hi' : i ∉ (missCheckStep bm e j).processedObjects := by
        rcases missCheckStep_processed_shape bm e j with hsh | hsh
        · rw [hsh]
          exact hi
        · rw [hsh]
          exact not_mem_setAdd _ _ _ hi (fun hh => hji hh.symm)
      have hmem' : i ∈ rest := by
        cases List.mem_cons.mp hmem with
        | inl h => exact absurd h.symm hji
        | inr h => exact h
      have ht' : (missCheckStep bm e j).currentTime >
          c.time + (missCheckStep bm e j).hitWindows.good := by
        rw [missCheckStep_currentTime, missCheckStep_hitWindows]
        exact ht
      obtain ⟨H1, H2, H3, H4⟩ := ih (missCheckStep bm e j) hbm' hInv' hmem' hi' ht'
      refine ⟨?_, H2, H3, H4⟩
      rw [H1, missCheckStep_events_ne bm e j i (fun hh => hji hh.symm)]

end GameEngine

namespace GameEngine

/-- The frame phases judge an eligible unhit circle `miss` exactly once. -/
theorem updatePhases_fires (t : ℚ) (e : Engine) (bm : Beatmap) (i : ℕ)
    (c : HitCircle) (hbm : e.beatmap = some bm) (hInv : TrackerInv e)
    (hobj : bm.hitObjects.get? i = some (HitObject.circle c))
    (hi : i ∉ e.processedObjects)
    (ht : t > c.time + e.hitWindows.good) :
    judgeEventsFor i (updatePhases t e) =
      judgeEventsFor i e ++ [(i, HitResult.miss)] ∧
    i ∈ (updatePhases t e).processedObjects := by
  unfold updatePhases
  have hbm0 : ({ e with currentTime := t } : Engine).beatmap = some bm := hbm
  have hInv0 : TrackerInv ({ e with currentTime := t } : Engine) := hInv
  have step1 : activateSpinners { e with currentTime := t } =
      List.foldl (activateSpinnerStep bm) { e with currentTime := t }
        (List.range bm.hitObjects.length) := by
    unfold activateSpinners
    rw [hbm0]
  obtain ⟨hI1, hB1, hP1, hJ1⟩ := activateFold_ok bm
    (List.range bm.hitObjects.length) { e with currentTime := t } hbm0 hInv0
  rw [← step1] at hI1 hB1 hP1 hJ1
  have hct1 : (activateSpinners { e with currentTime := t }).currentTime =
      ({ e with currentTime := t } : Engine).currentTime := by
    rw [step1]
    exact foldl_pres (fun x => x.currentTime) (activateSpinnerStep bm)
      (fun e' a => activateSpinnerStep_currentTime bm e' a)
      (List.range bm.hitObjects.length) { e with currentTime := t }
  have hhw1 : (activateSpinners { e with currentTime := t }).hitWindows =
      ({ e with currentTime := t } : Engine).hitWindows := by
    rw [step1]
    exact foldl_pres (fun x => x.hitWindows) (activateSpinnerStep bm)
      (fun e' a => activateSpinnerStep_hitWindows bm e' a)
      (List.range bm.hitObjects.length) { e with currentTime := t }
  have hilen : i < bm.hitObjects.length := by
    by_contra hcon
    rw [List.get?_eq_none.mpr (le_of_not_lt hcon)] at hobj
    exact Option.noConfusion hobj
  have hirange : i ∈ List.range bm.hitObjects.length := List.mem_range.mpr hilen
  have step2 : checkMissedObjects (activateSpinners { e with currentTime := t }) =
      List.foldl (missCheckStep bm) (activateSpinners { e with currentTime := t })
        (List.range bm.hitObjects.length) := by
    unfold checkMissedObjects
    rw [hB1]
  have hi1 : i ∉ (activateSpinners { e with currentTime := t }).processedObjects := by
    rw [hP1]
    exact hi
  have ht1 : (activateSpinners { e with currentTime := t }).currentTime >
      c.time + (activateSpinners { e with currentTime := t }).hitWindows.good := by
    rw [hct1, hhw1]
    exact ht
  obtain ⟨hF2, hM2, hI2, hB2⟩ := checkFold_fires bm i c hobj
    (List.range bm.hitObjects.length) (activateSpinners { e with currentTime := t })
    hB1 hI1 hirange hi1 ht1
  rw [← step2] at hF2 hM2 hI2 hB2
  set E2 := checkMissedObjects (activateSpinners { e with currentTime := t })
  have step3 : updateActiveSliders E2 = List.foldl sliderFrameStep E2 E2.activeSliders := rfl
  obtain ⟨hI3, hB3, hF3⟩ := sliderFold_ok E2.activeSliders E2 hI2
    (fun p hp => (AMap.mem_keys_iff _ _).mpr ⟨p.2, hp⟩) hI2.1
  rw [← step3] at hI3 hB3 hF3
  obtain ⟨hm3, hc3⟩ := hF3 i hM2
  have hext3 : JEExt E2 (updateActiveSliders E2) := by
    rw [step3]
    exact JEExt_foldl sliderFrameStep (fun e' p => JEExt_sliderFrameStep e' p)
      E2.activeSliders E2
  have heq3 := judgeEventsFor_eq_of_ext _ _ i hext3 hc3
  set E3 := updateActiveSliders E2
  have step4 : updateActiveSpinners E3 = List.foldl spinnerFrameStep E3 E3.activeSpinners := rfl
  obtain ⟨hI4, hB4, hF4⟩ := spinnerFold_ok E3.activeSpinners E3 hI3
    (fun p hp => (AMap.mem_keys_iff _ _).mpr ⟨p.2, hp⟩) hI3.2.1
  rw [← step4] at hI4 hB4 hF4
  obtain ⟨hm4, hc4⟩ := hF4 i hm3
  have hext4 : JEExt E3 (updateActiveSpinners E3) := by
    rw [step4]
    exact JEExt_foldl spinnerFrameStep (fun e' p => JEExt_spinnerFrameStep e' p)
      E3.activeSpinners E3
  have heq4 := judgeEventsFor_eq_of_ext _ _ i hext4 hc4
  refine ⟨?_, hm4⟩
  rw [heq4, heq3, hF2]
  unfold judgeEventsFor
  rw [hJ1]

/-- A frame advance judges an eligible unhit circle `miss` exactly once. -/
theorem update_fires (t : ℚ) (e : Engine) (bm : Beatmap) (i : ℕ) (c : HitCircle)
    (hrun : e.isRunning = true) (hbm : e.beatmap = some bm) (hInv : TrackerInv e)
    (hobj : bm.hitObjects.get? i = some (HitObject.circle c))
    (hi : i ∉ e.processedObjects)
    (ht : t > c.time + e.hitWindows.good) :
    judgeEventsFor i (update t e) = judgeEventsFor i e ++ [(i, HitResult.miss)] ∧
    i ∈ (update t e).processedObjects := by
  unfold update
  simp only [hrun, hbm, not_true, ite_false]
  obtain ⟨hF, hM⟩ := updatePhases_fires t e bm i c hbm hInv hobj hi ht
  obtain ⟨gs, fc, hshape⟩ := hpDrainPhase_shape bm
    (timeMultiplierOf (updatePhases t e).mods) (updatePhases t e)
  rw [hshape]
  split_ifs
  all_goals exact ⟨hF, hM⟩

end GameEngine

namespace GameEngine

theorem JEExt_activateSpinners (e : Engine) : JEExt e (activateSpinners e) := by
  unfold activateSpinners
  cases e.beatmap with
  | none => exact JEExt.rfl e
  | some bm =>
    exact JEExt_foldl (activateSpinnerStep bm)
      (fun e' a => JEExt_activateSpinnerStep bm e' a)
      (List.range bm.hitObjects.length) e

theorem JEExt_checkMissedObjects (e : Engine) : JEExt e (checkMissedObjects e) := by
  unfold checkMissedObjects
  cases e.beatmap with
  | none => exact JEExt.rfl e
  | some bm =>
    exact JEExt_foldl (missCheckStep bm) (fun e' a => JEExt_missCheckStep bm e' a)
      (List.range bm.hitObjects.length) e

theorem JEExt_updateActiveSliders (e : Engine) : JEExt e (updateActiveSliders e) :=
  JEExt_foldl sliderFrameStep (fun e' p => JEExt_sliderFrameStep e' p)
    e.activeSliders e

theorem JEExt_updateActiveSpinners (e : Engine) : JEExt e (updateActiveSpinners e) :=
  JEExt_foldl spinnerFrameStep (fun e' p => JEExt_spinnerFrameStep e' p)
    e.activeSpinners e

theorem JEExt_updatePhases (t : ℚ) (e : Engine) : JEExt e (updatePhases t e) := by
  unfold updatePhases
  refine JEExt.trans (JEExt_of_eq ?_)
    ((JEExt_activateSpinners _).trans ((JEExt_checkMissedObjects _).trans
      ((JEExt_updateActiveSliders _).trans (JEExt_updateActiveSpinners _))))
  rfl

theorem JEExt_hpDrainPhase (bm : Beatmap) (tm : ℚ) (e : Engine) :
    JEExt e (hpDrainPhase bm tm e) := by
  obtain ⟨gs, fc, hshape⟩ := hpDrainPhase_shape bm tm e
  rw [hshape]
  exact JEExt_of_eq rfl

theorem JEExt_update (t : ℚ) (e : Engine) : JEExt e (update t e) := by
  unfold update
  cases hr : e.isRunning with
  | false =>
    simp only [hr, Bool.not_false, ite_true]
    exact JEExt.rfl e
  | true =>
    cases hb : e.beatmap with
    | none =>
      simp only [hr, hb, not_true, ite_false]
      exact JEExt.rfl e
    | some bm =>
      simp only [hr, hb, not_true, ite_false]
      try dsimp only
      split_ifs
      all_goals
        refine JEExt.trans (JEExt_updatePhases t e)
          (JEExt.trans (JEExt_hpDrainPhase bm _ _) (JEExt_of_eq rfl))

theorem JEExt_clickScan (ctx : MathCtx) (bm : Beatmap) (x y : ℚ) (e : Engine) :
    ∀ l : List ℕ, JEExt e (clickScan ctx bm x y e l) := by
  intro l
  induction l with
  | nil => exact JEExt.rfl e
  | cons i rest ih =>
    rw [clickScan]
    cases hobj : bm.hitObjects.get? i with
    | none => exact ih
    | some obj =>
      dsimp only
      by_cases hmem : i ∈ e.processedObjects
      · rw [if_pos hmem]
        exact ih
      · rw [if_neg hmem]
        by_cases hw : |e.currentTime - obj.time| ≤ e.hitWindows.good
        · rw [if_pos hw]
          cases obj with
          | circle c =>
            dsimp only
            split_ifs
            · exact JEExt_processHit _ _ _ e
            · exact ih
          | slider s =>
            dsimp only
            split_ifs
            all_goals first
              | exact ih
              | exact JEExt.rfl e
              | exact JEExt_of_eq rfl
          | spinner sp =>
            dsimp only
            by_cases hsp : e.currentTime ≥ sp.time ∧ e.currentTime ≤ sp.endTime
            · rw [if_pos hsp]
              by_cases hc : AMap.contains e.activeSpinners i = true
              · rw [if_pos hc]
                cases AMap.get? e.activeSpinners i with
                | none => exact JEExt.rfl e
                | some a => exact JEExt_of_eq rfl
              · rw [if_neg hc]
                cases AMap.get? (AMap.set e.activeSpinners i
                    (freshActiveSpinner sp)) i with
                | none => exact JEExt_of_eq rfl
                | some a => exact JEExt_of_eq rfl
            · rw [if_neg hsp]
              exact ih
        · rw [if_neg hw]
          exact ih

theorem JEExt_handleClick (ctx : MathCtx) (x y : ℚ) (e : Engine) :
    JEExt e (handleClick ctx x y e) := by
  unfold handleClick
  cases hr : e.isRunning with
  | false =>
    simp only [hr, Bool.not_false, ite_true]
    exact JEExt.rfl e
  | true =>
    simp only [hr, not_true, ite_false]
    cases e.beatmap with
    | none => exact JEExt.rfl e
    | some bm =>
      try dsimp only
      exact JEExt.trans (JEExt_of_eq rfl)
        (JEExt_clickScan ctx bm x y _ (List.range bm.hitObjects.length))

theorem JEExt_moveSliderStep (x y : ℚ) (e : Engine) (p : ℕ × ActiveSlider) :
    JEExt e (moveSliderStep x y e p) := by
  unfold moveSliderStep
  dsimp only
  split_ifs <;> first | exact JEExt.rfl e | exact JEExt_of_eq rfl

theorem JEExt_moveSpinnerStep (ctx : MathCtx) (x y : ℚ) (e : Engine)
    (p : ℕ × ActiveSpinner) : JEExt e (moveSpinnerStep ctx x y e p) := by
  unfold moveSpinnerStep
  cases p.2.lastAngle with
  | none => exact JEExt_of_eq rfl
  | some la =>
    dsimp only
    split_ifs <;> first | exact JEExt.rfl e | exact JEExt_of_eq rfl

theorem JEExt_handleMouseMove (ctx : MathCtx) (x y : ℚ) (e : Engine) :
    JEExt e (handleMouseMove ctx x y e) := by
  unfold handleMouseMove
  cases hr : e.isRunning with
  | false =>
    simp only [hr, Bool.not_false, ite_true]
    exact JEExt.rfl e
  | true =>
    simp only [hr, not_true, ite_false]
    try dsimp only
    refine JEExt.trans (JEExt_of_eq ?_) (JEExt.trans
      (JEExt_foldl (moveSliderStep x y)
        (fun e' p => JEExt_moveSliderStep x y e' p) _ _)
      (JEExt_foldl (moveSpinnerStep ctx x y)
        (fun e' p => JEExt_moveSpinnerStep ctx x y e' p) _ _))
    rfl

theorem JEExt_stepAction (ctx : MathCtx) (e : Engine) (a : Action) :
    JEExt e (stepAction ctx e a) := by
  cases a with
  | frame t => exact JEExt_update t e
  | click x y => exact JEExt_handleClick ctx x y e
  | move x y => exact JEExt_handleMouseMove ctx x y e
  | release => exact JEExt_of_eq rfl
  | startRun =>
    show JEExt e (start e)
    unfold start
    split_ifs
    · exact JEExt.rfl e
    · exact JEExt_of_eq rfl
  | stopRun => exact JEExt_of_eq rfl
  | pauseRun => exact JEExt_of_eq rfl
  | resumeRun => exact JEExt_of_eq rfl

/-- Once judged, an object is frozen: any later non-(re)start action keeps it
in the processed set and leaves its judgement history untouched. -/
theorem stepAction_frozen (ctx : MathCtx) (e : Engine) (a : Action) (j : ℕ)
    (hInv : TrackerInv e) (hne : ¬ a = Action.startRun)
    (hj : j ∈ e.processedObjects) :
    j ∈ (stepAction ctx e a).processedObjects ∧
    judgeEventsFor j (stepAction ctx e a) = judgeEventsFor j e := by
  obtain ⟨hmem, hcount⟩ := (stepAction_ok ctx e a hInv).2 hne j hj
  exact ⟨hmem, judgeEventsFor_eq_of_ext _ _ j (JEExt_stepAction ctx e a) hcount⟩

/-- `stepAction_frozen`, iterated over a whole tail of a run. -/
theorem runActions_frozen (ctx : MathCtx) (acts : List Action) :
    ∀ (e : Engine) (j : ℕ), TrackerInv e →
      (∀ a ∈ acts, ¬ a = Action.startRun) → j ∈ e.processedObjects →
      j ∈ (runActions ctx e acts).processedObjects ∧
      judgeEventsFor j (runActions ctx e acts) = judgeEventsFor j e := by
  induction acts with
  | nil => exact fun e j _ _ hj => ⟨hj, rfl⟩
  | cons a rest ih =>
    intro e j hInv hall hj
    have hstep := stepAction_frozen ctx e a j hInv
      (hall a (List.mem_cons_self a rest)) hj
    have hInv' := (stepAction_ok ctx e a hInv).1
    obtain ⟨H1, H2⟩ := ih (stepAction ctx e a) j hInv'
      (fun b hb => hall b (List.mem_cons_of_mem a hb)) hstep.1
    refine ⟨?_, ?_⟩
    · show j ∈ (List.foldl (stepAction ctx) e (a :: rest)).processedObjects
      rw [List.foldl_cons]
      exact H1
    · show judgeEventsFor j (List.foldl (stepAction ctx) e (a :: rest)) =
        judgeEventsFor j e
      rw [List.foldl_cons]
      rw [show List.foldl (stepAction ctx) (stepAction ctx e a) rest =
        runActions ctx (stepAction ctx e a) rest from rfl]
      rw [H2, hstep.2]

end GameEngine

namespace GameEngine

/-- An engine whose tracking maps are empty satisfies the tracker invariant. -/
theorem TrackerInv_of_empty (e : Engine) (h1 : e.activeSliders = [])
    (h2 : e.activeSpinners = []) : TrackerInv e := by
  refine ⟨?_, ?_, ?_, ?_⟩
  · rw [h1]
    exact List.nodup_nil
  · rw [h2]
    exact List.nodup_nil
  · intro p hp
    rw [h1] at hp
    exact absurd hp (List.not_mem_nil p)
  · intro p hp
    rw [h2] at hp
    exact absurd hp (List.not_mem_nil p)

/-- C2.  Each hit object is judged at most once per run.  (1) Every external
event preserves the object-lifecycle tracker invariant.  (2) Once an object's
index is in the processed set, any further event other than a restart keeps it
there and emits no further `onJudgement` for it — its judgement history is
frozen.  (3) The same holds along any sequence of further events.  (4) An
unhit circle whose miss window `time + good` has elapsed at the frame's clock
reading is judged `miss` exactly once on that frame and enters the processed
set, so by (2)–(3) no later frame or input re-judges it. -/
theorem c2_judged_once :
    (∀ (ctx : MathCtx) (e : Engine) (a : Action), TrackerInv e →
      TrackerInv (stepAction ctx e a)) ∧
    (∀ (ctx : MathCtx) (e : Engine) (a : Action) (j : ℕ), TrackerInv e →
      ¬ a = Action.startRun → j ∈ e.processedObjects →
      j ∈ (stepAction ctx e a).processedObjects ∧
      judgeEventsFor j (stepAction ctx e a) = judgeEventsFor j e) ∧
    (∀ (ctx : MathCtx) (e : Engine) (acts : List Action) (j : ℕ), TrackerInv e →
      (∀ a ∈ acts, ¬ a = Action.startRun) → j ∈ e.processedObjects →
      j ∈ (runActions ctx e acts).processedObjects ∧
      judgeEventsFor j (runActions ctx e acts) = judgeEventsFor j e) ∧
    (∀ (t : ℚ) (e : Engine) (bm : Beatmap) (i : ℕ) (c : HitCircle),
      e.isRunning = true → e.beatmap = some bm → TrackerInv e →
      bm.hitObjects.get? i = some (HitObject.circle c) →
      i ∉ e.processedObjects → t > c.time + e.hitWindows.good →
      judgeEventsFor i (update t e) = judgeEventsFor i e ++ [(i, HitResult.miss)] ∧
      i ∈ (update t e).processedObjects) := by
  refine ⟨?_, ?_, ?_, ?_⟩
  · exact fun ctx e a hInv => (stepAction_ok ctx e a hInv).1
  · exact fun ctx e a j hInv hne hj => stepAction_frozen ctx e a j hInv hne hj
  · exact fun ctx e acts j hInv hall hj => runActions_frozen ctx acts e j hInv hall hj
  · exact fun t e bm i c hrun hbm hInv hobj hi ht =>
      update_fires t e bm i c hrun hbm hInv hobj hi ht

theorem c2_judged_once_witness :
    (TrackerInv (stepAction ctx0 engAfterMiss (Action.frame 1300)) ∧
      0 ∈ (stepAction ctx0 engAfterMiss (Action.frame 1300)).processedObjects ∧
      judgeEventsFor 0 (stepAction ctx0 engAfterMiss (Action.frame 1300)) =
        judgeEventsFor 0 engAfterMiss) ∧
    (0 ∈ (runActions ctx0 engAfterMiss
        [Action.frame 1300, Action.click 256 192]).processedObjects ∧
      judgeEventsFor 0 (runActions ctx0 engAfterMiss
        [Action.frame 1300, Action.click 256 192]) =
        judgeEventsFor 0 engAfterMiss) ∧
    (judgeEventsFor 0 (update 1200 engOneCircle) =
      judgeEventsFor 0 engOneCircle ++ [(0, HitResult.miss)] ∧
    0 ∈ (update 1200 engOneCircle).processedObjects) := by
  have hInvAM : TrackerInv engAfterMiss :=
    TrackerInv_of_empty engAfterMiss (by with_unfolding_all rfl)
      (by with_unfolding_all rfl)
  have hmemAM : 0 ∈ engAfterMiss.processedObjects := by
    with_unfolding_all decide
  have hfr : ¬ Action.frame 1300 = Action.startRun := fun h => Action.noConfusion h
  obtain ⟨w1, w2⟩ := c2_judged_once.2.1 ctx0 engAfterMiss (Action.frame 1300) 0
    hInvAM hfr hmemAM
  obtain ⟨w3, w4⟩ := c2_judged_once.2.2.1 ctx0 engAfterMiss
    [Action.frame 1300, Action.click 256 192] 0 hInvAM
    (by
      intro a ha
      rcases List.mem_cons.mp ha with rfl | ha2
      · exact fun h => Action.noConfusion h
      · rcases List.mem_cons.mp ha2 with rfl | ha3
        · exact fun h => Action.noConfusion h
        · exact absurd ha3 (List.not_mem_nil a))
    hmemAM
  obtain ⟨w5, w6⟩ := c2_judged_once.2.2.2 1200 engOneCircle bmOneCircle 0
    { x := 256, y := 192, time := 1000, comboNumber := 1, comboColor := 0 }
    (by with_unfolding_all rfl) (by with_unfolding_all rfl)
    (TrackerInv_of_empty engOneCircle (by with_unfolding_all rfl)
      (by with_unfolding_all rfl))
    (by with_unfolding_all rfl) (by with_unfolding_all decide)
    (by with_unfolding_all decide)
  exact ⟨⟨c2_judged_once.1 ctx0 engAfterMiss (Action.frame 1300) hInvAM, w1, w2⟩,
    ⟨w3, w4⟩, ⟨w5, w6⟩⟩

end GameEngine

namespace GameEngine

/-- Within the good window, `getHitResult` never returns `miss`. -/
theorem getHitResult_ne_miss (w : HitWindows) (d : ℚ) (h : d ≤ w.good) :
    ¬ getHitResult w d = HitResult.miss := by
  intro hc
  unfold getHitResult at hc
  split_ifs at hc with h1 h2 h3

/-- The `handleClick` scan leaves the engine untouched across any prefix of
indices it passes over. -/
theorem clickScan_skip (ctx : MathCtx) (bm : Beatmap) (x y : ℚ) (e : Engine) :
    ∀ (l₁ l₂ : List ℕ),
      (∀ j ∈ l₁, clickPasses bm x y e.processedObjects e.currentTime
        e.hitWindows e.circleRadius j) →
      clickScan ctx bm x y e (l₁ ++ l₂) = clickScan ctx bm x y e l₂ := by
  intro l₁
  induction l₁ with
  | nil =>
    intro l₂ _
    rw [List.nil_append]
  | cons j rest ih =>
    intro l₂ hall
    have hrest : ∀ k ∈ rest, clickPasses bm x y e.processedObjects e.currentTime
        e.hitWindows e.circleRadius k :=
      fun k hk => hall k (List.mem_cons_of_mem j hk)
    rw [List.cons_append, clickScan]
    have hj := hall j (List.mem_cons_self j rest)
    unfold clickPasses at hj
    cases hobj : bm.hitObjects.get? j with
    | none => exact ih l₂ hrest
    | some obj =>
      rw [hobj] at hj
      dsimp only
      by_cases hmem : j ∈ e.processedObjects
      · rw [if_pos hmem]
        exact ih l₂ hrest
      · rw [if_neg hmem]
        by_cases hw : |e.currentTime - obj.time| ≤ e.hitWindows.good
        · rw [if_pos hw]
          rcases hj with hj | hj | hj
          · exact absurd hj hmem
          · exact absurd hw hj
          · cases obj with
            | circle c =>
              dsimp only
              rw [if_neg (show ¬ isPointInCircle x y c.x c.y e.circleRadius = true by
                intro htrue
                rw [hj] at htrue
                exact Bool.noConfusion htrue)]
              exact ih l₂ hrest
            | slider s =>
              dsimp only
              rw [if_neg (show ¬ isPointInCircle x y s.x s.y e.circleRadius = true by
                intro htrue
                rw [hj] at htrue
                exact Bool.noConfusion htrue)]
              exact ih l₂ hrest
            | spinner sp =>
              dsimp only
              rw [if_neg hj]
              exact ih l₂ hrest
        · rw [if_neg hw]
          exact ih l₂ hrest

/-- The slider-head branch of the `handleClick` scan: a timely on-head click
engages the slider and immediately banks the provisional third of the base
points, combo-multiplied. -/
theorem clickScan_slider_engage (ctx : MathCtx) (bm : Beatmap) (x y : ℚ)
    (e : Engine) (i : ℕ) (s : Slider) (rest : List ℕ)
    (hobj : bm.hitObjects.get? i = some (HitObject.slider s))
    (hi : i ∉ e.processedObjects)
    (hw : |e.currentTime - s.time| ≤ e.hitWindows.good)
    (hpt : isPointInCircle x y s.x s.y e.circleRadius = true) :
    clickScan ctx bm x y e (i :: rest) =
      addScore ((scoreValueOf (getHitResult e.hitWindows
          |e.currentTime - s.time|) : ℚ) / 3) true
        { e with
          activeSliders := AMap.set e.activeSliders i
            { slider := s, progress := 0, ticksHit := 1, isHeld := true, startHit := true } } := by
  rw [clickScan, hobj]
  try dsimp only
  rw [if_neg hi]
  rw [if_pos (show |e.currentTime - (HitObject.slider s).time| ≤ e.hitWindows.good
    from hw)]
  try dsimp only
  rw [if_pos hpt]
  rw [if_neg (getHitResult_ne_miss e.hitWindows
    (|e.currentTime - (HitObject.slider s).time|) hw)]
  rfl

/-- A `processHit` of a log-preserving record, wrapped in another
log-preserving record, appends exactly one judgement for its object. -/
theorem judgeEventsFor_then {e : Engine} (i : ℕ) (r : HitResult) (o : HitObject)
    (mid eout : Engine)
    (h2 : eout.judgeEvents = (processHit i r o mid).judgeEvents)
    (h1 : mid.judgeEvents = e.judgeEvents) :
    judgeEventsFor i eout = judgeEventsFor i e ++ [(i, r)] := by
  unfold judgeEventsFor
  rw [h2, processHit_judgeEvents, h1, List.filter_append]
  congr 1
  simp

/-- The completion branch of `updateActiveSliders`: a slider whose time has
fully elapsed is judged `great` when at least half its ticks were collected
and `good` otherwise — never `miss`. -/
theorem sliderFrameStep_completes (e : Engine) (p : ℕ × ActiveSlider)
    (h : (e.currentTime - p.2.slider.time) / p.2.slider.duration ≥ 1) :
    ∃ r, (r = HitResult.great ∨ r = HitResult.good) ∧
      (r = HitResult.great ↔ (p.2.ticksHit : ℚ) ≥ p.2.slider.tickCount * (1/2)) ∧
      judgeEventsFor p.1 (sliderFrameStep e p) =
        judgeEventsFor p.1 e ++ [(p.1, r)] := by
  unfold sliderFrameStep
  dsimp only
  rw [if_pos (show (1 : ℚ) ⊓ ((e.currentTime - p.2.slider.time) /
      p.2.slider.duration) ≥ 1 from le_inf (le_refl 1) h)]
  by_cases ht : (p.2.ticksHit : ℚ) ≥ p.2.slider.tickCount * (1/2)
  · rw [if_pos ht]
    exact ⟨HitResult.great, Or.inl rfl, ⟨fun _ => ht, fun _ => rfl⟩,
      judgeEventsFor_then p.1 HitResult.great (HitObject.slider p.2.slider)
        _ _ rfl rfl⟩
  · rw [if_neg ht]
    exact ⟨HitResult.good, Or.inr rfl,
      ⟨fun hgg => HitResult.noConfusion hgg, fun hticks => absurd hticks ht⟩,
      judgeEventsFor_then p.1 HitResult.good (HitObject.slider p.2.slider)
        _ _ rfl rfl⟩

/-- The slider branch of the timeout sweep: a never-engaged slider whose end
time plus good window has elapsed is judged `miss`. -/
theorem missCheckStep_slider_timeout (bm : Beatmap) (e : Engine) (i : ℕ)
    (s : Slider) (hobj : bm.hitObjects.get? i = some (HitObject.slider s))
    (hi : i ∉ e.processedObjects)
    (ht : e.currentTime > s.time + s.duration + e.hitWindows.good)
    (hact : AMap.contains e.activeSliders i = false) :
    missCheckStep bm e i = processHit i HitResult.miss (HitObject.slider s) e ∧
    judgeEventsFor i (missCheckStep bm e i) =
      judgeEventsFor i e ++ [(i, HitResult.miss)] := by
  have hstep : missCheckStep bm e i =
      processHit i HitResult.miss (HitObject.slider s) e := by
    unfold missCheckStep
    rw [hobj]
    dsimp only
    rw [if_neg hi]
    try dsimp only
    rw [if_pos (show e.currentTime > s.time + s.duration + e.hitWindows.good ∧
        ¬ AMap.contains e.activeSliders i = true from
      ⟨ht, by rw [hact]; exact fun hc => Bool.noConfusion hc⟩)]
  refine ⟨hstep, ?_⟩
  rw [hstep, judgeEventsFor_processHit_self]

end GameEngine

namespace GameEngine

/-- C5.  Slider lifecycle.  (1) A click while running, reached by the object
scan with every earlier index passed over, that lands within the good window
of a slider's start time and within circle radius of its head, engages the
slider (tracking record with one tick credited, held, start hit) and
immediately banks a combo-multiplied provisional score of a third of the
window's base points — the window result is never `miss`.  (2) Once tracked,
when its time is fully elapsed the slider is judged `great` exactly when at
least half of `tickCount` ticks were collected and `good` otherwise, never
`miss`.  (3) A never-engaged slider is judged `miss` by the timeout sweep
once the clock passes `time + duration + good`. -/
theorem c5_slider_lifecycle :
    (∀ (ctx : MathCtx) (x y : ℚ) (e : Engine) (bm : Beatmap) (i : ℕ)
      (s : Slider) (pre rest : List ℕ),
      e.isRunning = true → e.beatmap = some bm →
      List.range bm.hitObjects.length = pre ++ i :: rest →
      (∀ j ∈ pre, clickPasses bm x y e.processedObjects e.currentTime
        e.hitWindows e.circleRadius j) →
      bm.hitObjects.get? i = some (HitObject.slider s) →
      i ∉ e.processedObjects →
      |e.currentTime - s.time| ≤ e.hitWindows.good →
      isPointInCircle x y s.x s.y e.circleRadius = true →
      ¬ getHitResult e.hitWindows |e.currentTime - s.time| = HitResult.miss ∧
      handleClick ctx x y e =
        addScore ((scoreValueOf (getHitResult e.hitWindows
            |e.currentTime - s.time|) : ℚ) / 3) true
          { e with
            replayFrames := e.replayFrames ++
              [{ time := e.currentTime, x := x, y := y, keys := 1 }]
            activeSliders := AMap.set e.activeSliders i
              { slider := s, progress := 0, ticksHit := 1, isHeld := true, startHit := true } }) ∧
    (∀ (e : Engine) (p : ℕ × ActiveSlider),
      (e.currentTime - p.2.slider.time) / p.2.slider.duration ≥ 1 →
      ∃ r, (r = HitResult.great ∨ r = HitResult.good) ∧
        (r = HitResult.great ↔ (p.2.ticksHit : ℚ) ≥ p.2.slider.tickCount * (1/2)) ∧
        judgeEventsFor p.1 (sliderFrameStep e p) =
          judgeEventsFor p.1 e ++ [(p.1, r)]) ∧
    (∀ (bm : Beatmap) (e : Engine) (i : ℕ) (s : Slider),
      bm.hitObjects.get? i = some (HitObject.slider s) →
      i ∉ e.processedObjects →
      e.currentTime > s.time + s.duration + e.hitWindows.good →
      AMap.contains e.activeSliders i = false →
      missCheckStep bm e i = processHit i HitResult.miss (HitObject.slider s) e ∧
      judgeEventsFor i (missCheckStep bm e i) =
        judgeEventsFor i e ++ [(i, HitResult.miss)]) := by
  refine ⟨?_, ?_, ?_⟩
  · intro ctx x y e bm i s pre rest hrun hbm hrange hall hobj hi hw hpt
    refine ⟨getHitResult_ne_miss _ _ hw, ?_⟩
    unfold handleClick
    simp only [hrun, not_true, ite_false]
    rw [hbm]
    try dsimp only
    rw [hrange]
    refine Eq.trans (clickScan_skip ctx bm x y _ pre (i :: rest) hall) ?_
    refine Eq.trans (clickScan_slider_engage ctx bm x y _ i s rest hobj hi hw hpt) ?_
    rfl
  · exact fun e p h => sliderFrameStep_completes e p h
  · exact fun bm e i s hobj hi ht hact =>
      missCheckStep_slider_timeout bm e i s hobj hi ht hact

theorem c5_slider_lifecycle_witness :
    (¬ getHitResult engOneSlider.hitWindows
        |engOneSlider.currentTime - slider0.time| = HitResult.miss ∧
      handleClick ctx0 256 192 engOneSlider =
        addScore ((scoreValueOf (getHitResult engOneSlider.hitWindows
            |engOneSlider.currentTime - slider0.time|) : ℚ) / 3) true
          { engOneSlider with
            replayFrames := engOneSlider.replayFrames ++
              [{ time := engOneSlider.currentTime, x := 256, y := 192, keys := 1 }]
            activeSliders := AMap.set engOneSlider.activeSliders 0
              { slider := slider0, progress := 0, ticksHit := 1, isHeld := true, startHit := true } }) ∧
    (∃ r, (r = HitResult.great ∨ r = HitResult.good) ∧
      (r = HitResult.great ↔ (activeSlider0.ticksHit : ℚ) ≥
        activeSlider0.slider.tickCount * (1/2)) ∧
      judgeEventsFor 0 (sliderFrameStep engSliderDone (0, activeSlider0)) =
        judgeEventsFor 0 engSliderDone ++ [(0, r)]) ∧
    (missCheckStep bmOneSlider engSliderLate 0 =
      processHit 0 HitResult.miss (HitObject.slider slider0) engSliderLate ∧
    judgeEventsFor 0 (missCheckStep bmOneSlider engSliderLate 0) =
      judgeEventsFor 0 engSliderLate ++ [(0, HitResult.miss)]) := by
  refine ⟨?_, ?_, ?_⟩
  · exact c5_slider_lifecycle.1 ctx0 256 192 engOneSlider bmOneSlider 0 slider0
      [] [] (by with_unfolding_all rfl) (by with_unfolding_all rfl)
      (by with_unfolding_all rfl)
      (fun j hj => absurd hj (List.not_mem_nil j))
      (by with_unfolding_all rfl) (by with_unfolding_all decide)
      (by with_unfolding_all decide) (by with_unfolding_all decide)
  · exact c5_slider_lifecycle.2.1 engSliderDone (0, activeSlider0)
      (by with_unfolding_all decide)
  · exact c5_slider_lifecycle.2.2 bmOneSlider engSliderLate 0 slider0
      (by with_unfolding_all rfl) (by with_unfolding_all decide)
      (by with_unfolding_all decide) (by with_unfolding_all rfl)

end GameEngine

namespace GameEngine

theorem AMap.find?_set_self {α : Type} (k : ℕ) (v : α) :
    ∀ m : AMap α,
      List.find? (fun p => p.1 = k) (AMap.set m k v) = some (k, v) := by
  intro m
  unfold AMap.set
  by_cases hc : AMap.contains m k = true
  · rw [if_pos hc]
    unfold AMap.contains at hc
    induction m with
    | nil => exact absurd hc (by simp)
    | cons q t ih =>
      rw [List.map_cons]
      by_cases hq : q.1 = k
      · rw [if_pos hq]
        rw [List.find?_cons_of_pos _ (by simp)]
      · rw [if_neg hq]
        rw [List.find?_cons_of_neg _ (by simp [hq])]
        refine ih ?_
        rw [List.find?_cons_of_neg _ (by simp [hq])] at hc
        exact hc
  · rw [if_neg hc]
    have hnone : List.find? (fun p => p.1 = k) m = none := by
      unfold AMap.contains at hc
      cases hfind : List.find? (fun p => (p.1 = k : Bool)) m with
      | none => rfl
      | some q =>
        rw [hfind] at hc
        exact absurd rfl hc
    induction m with
    | nil =>
      rw [List.nil_append]
      rw [List.find?_cons_of_pos _ (by simp)]
    | cons q t ih =>
      rw [List.cons_append]
      by_cases hq : q.1 = k
      · rw [List.find?_cons_of_pos _ (by simp [hq])] at hnone
        exact Option.noConfusion hnone
      · rw [List.find?_cons_of_neg _ (by simp [hq])] at hnone ⊢
        exact ih (by unfold AMap.contains; rw [hnone]; simp) hnone

theorem AMap.get?_set_self {α : Type} (m : AMap α) (k : ℕ) (v : α) :
    AMap.get? (AMap.set m k v) k = some v := by
  unfold AMap.get?
  rw [AMap.find?_set_self k v m]
  rfl

/-- `activateSpinners` registers an eligible spinner with the documented
required-spins formula and a blank rotation state. -/
theorem activateSpinnerStep_creates (bm : Beatmap) (e : Engine) (i : ℕ)
    (sp : Spinner) (hobj : bm.hitObjects.get? i = some (HitObject.spinner sp))
    (hi : i ∉ e.processedObjects)
    (hc : AMap.contains e.activeSpinners i = false)
    (ht1 : e.currentTime ≥ sp.time) (ht2 : e.currentTime ≤ sp.endTime) :
    AMap.get? (activateSpinnerStep bm e i).activeSpinners i =
      some
        { spinner := sp
          rotation := 0
          lastAngle := none
          spinsCompleted := 0
          requiredSpins := Int.ceil ((sp.endTime - sp.time) / 1000 * (5/2))
          isActive := true } := by
  unfold activateSpinnerStep
  rw [hobj]
  try dsimp only
  rw [if_neg hi]
  rw [if_neg (show ¬ AMap.contains e.activeSpinners i = true by
    rw [hc]
    exact fun hcc => Bool.noConfusion hcc)]
  rw [if_pos ⟨ht1, ht2⟩]
  show AMap.get? (AMap.set e.activeSpinners i (freshActiveSpinner sp)) i = _
  rw [AMap.get?_set_self]
  rfl

/-- `addScore` with the combo multiplier disabled adds exactly
`floor(basePoints x modMultiplier)`. -/
theorem addScore_false_score (b : ℚ) (e : Engine) :
    (addScore b false e).gameState.score =
      e.gameState.score + Int.floor (b * modMultiplier e.mods) := by
  unfold addScore
  dsimp only
  rw [if_neg (show ¬ (false : Bool) = true from Bool.false_ne_true), mul_one]

/-- The spin-credit branch of the spinner-rotation loop: whole spins gained
this mouse move are paid `floor(100 x gained x modMultiplier)` with no combo
factor, and the combo itself is untouched. -/
theorem moveSpinnerStep_bonus (ctx : MathCtx) (x y : ℚ) (e : Engine)
    (p : ℕ × ActiveSpinner) (la : ℚ) (hla : p.2.lastAngle = some la)
    (hgt : (p.2.rotation + |spinDelta ctx la (ctx.atan2 (y - 192) (x - 256))|) /
      (2 * ctx.piQ) > p.2.spinsCompleted)
    (hpos : 0 < Int.floor ((p.2.rotation +
        |spinDelta ctx la (ctx.atan2 (y - 192) (x - 256))|) / (2 * ctx.piQ)) -
      Int.floor p.2.spinsCompleted) :
    (moveSpinnerStep ctx x y e p).gameState.score = e.gameState.score +
      Int.floor (100 * ((Int.floor ((p.2.rotation +
          |spinDelta ctx la (ctx.atan2 (y - 192) (x - 256))|) / (2 * ctx.piQ)) -
        Int.floor p.2.spinsCompleted : ℤ) : ℚ) * modMultiplier e.mods) ∧
    (moveSpinnerStep ctx x y e p).gameState.combo = e.gameState.combo := by
  unfold moveSpinnerStep
  rw [hla]
  dsimp only
  split_ifs with h1 h2
  exact ⟨addScore_false_score _ _, rfl⟩

/-- The completion branch of `updateActiveSpinners`: at the spinner's end
time, the judgement is `perfect` with all required spins, `great` with at
least half, `miss` otherwise. -/
theorem spinnerFrameStep_completes (e : Engine) (p : ℕ × ActiveSpinner)
    (h : e.currentTime ≥ p.2.spinner.endTime) :
    judgeEventsFor p.1 (spinnerFrameStep e p) = judgeEventsFor p.1 e ++
      [(p.1,
        if p.2.spinsCompleted ≥ (p.2.requiredSpins : ℚ) then HitResult.perfect
        else if p.2.spinsCompleted ≥ (p.2.requiredSpins : ℚ) * (1/2) then
          HitResult.great
        else HitResult.miss)] := by
  unfold spinnerFrameStep
  dsimp only
  rw [if_pos h]
  split_ifs with h1 h2
  · exact judgeEventsFor_then p.1 HitResult.perfect
      (HitObject.spinner p.2.spinner) _ _ rfl rfl
  · exact judgeEventsFor_then p.1 HitResult.great
      (HitObject.spinner p.2.spinner) _ _ rfl rfl
  · exact judgeEventsFor_then p.1 HitResult.miss
      (HitObject.spinner p.2.spinner) _ _ rfl rfl

end GameEngine

namespace GameEngine

/-- C6.  Spinner lifecycle.  (1) `activateSpinners` registers an eligible
spinner (inside its time span, unjudged, not yet tracked) with
`requiredSpins = ceil((endTime - time)/1000 x 2.5)` and a blank rotation
state.  (2) Whole spins gained during a mouse move are paid a fixed bonus of
`floor(100 x spinsGained x modMultiplier)` with no combo factor, leaving the
combo untouched.  (3) When the clock reaches the spinner's end time, the
tracked spinner is judged `perfect` if `spinsCompleted >= requiredSpins`,
`great` if at least half, and `miss` otherwise. -/
theorem c6_spinner_lifecycle :
    (∀ (bm : Beatmap) (e : Engine) (i : ℕ) (sp : Spinner),
      bm.hitObjects.get? i = some (HitObject.spinner sp) →
      i ∉ e.processedObjects →
      AMap.contains e.activeSpinners i = false →
      e.currentTime ≥ sp.time → e.currentTime ≤ sp.endTime →
      AMap.get? (activateSpinnerStep bm e i).activeSpinners i =
        some
          { spinner := sp
            rotation := 0
            lastAngle := none
            spinsCompleted := 0
            requiredSpins := Int.ceil ((sp.endTime - sp.time) / 1000 * (5/2))
            isActive := true }) ∧
    (∀ (ctx : MathCtx) (x y : ℚ) (e : Engine) (p : ℕ × ActiveSpinner) (la : ℚ),
      p.2.lastAngle = some la →
      (p.2.rotation + |spinDelta ctx la (ctx.atan2 (y - 192) (x - 256))|) /
        (2 * ctx.piQ) > p.2.spinsCompleted →
      0 < Int.floor ((p.2.rotation +
          |spinDelta ctx la (ctx.atan2 (y - 192) (x - 256))|) / (2 * ctx.piQ)) -
        Int.floor p.2.spinsCompleted →
      (moveSpinnerStep ctx x y e p).gameState.score = e.gameState.score +
        Int.floor (100 * ((Int.floor ((p.2.rotation +
            |spinDelta ctx la (ctx.atan2 (y - 192) (x - 256))|) / (2 * ctx.piQ)) -
          Int.floor p.2.spinsCompleted : ℤ) : ℚ) * modMultiplier e.mods) ∧
      (moveSpinnerStep ctx x y e p).gameState.combo = e.gameState.combo) ∧
    (∀ (e : Engine) (p : ℕ × ActiveSpinner),
      e.currentTime ≥ p.2.spinner.endTime →
      judgeEventsFor p.1 (spinnerFrameStep e p) = judgeEventsFor p.1 e ++
        [(p.1,
          if p.2.spinsCompleted ≥ (p.2.requiredSpins : ℚ) then HitResult.perfect
          else if p.2.spinsCompleted ≥ (p.2.requiredSpins : ℚ) * (1/2) then
            HitResult.great
          else HitResult.miss)]) := by
  refine ⟨?_, ?_, ?_⟩
  · exact fun bm e i sp hobj hi hc ht1 ht2 =>
      activateSpinnerStep_creates bm e i sp hobj hi hc ht1 ht2
  · exact fun ctx x y e p la hla hgt hpos =>
      moveSpinnerStep_bonus ctx x y e p la hla hgt hpos
  · exact fun e p h => spinnerFrameStep_completes e p h

theorem c6_spinner_lifecycle_witness :
    (AMap.get? (activateSpinnerStep bmOneSpinner engSpinnerPending 0).activeSpinners 0 =
      some
        { spinner := spinner0
          rotation := 0
          lastAngle := none
          spinsCompleted := 0
          requiredSpins := Int.ceil ((spinner0.endTime - spinner0.time) / 1000 * (5/2))
          isActive := true }) ∧
    ((moveSpinnerStep ctxUnit 256 192 engSpinnerSpun (0, activeSpinnerSpun)).gameState.score =
      engSpinnerSpun.gameState.score +
        Int.floor (100 * ((Int.floor ((activeSpinnerSpun.rotation +
            |spinDelta ctxUnit 0 (ctxUnit.atan2 (192 - 192) (256 - 256))|) /
            (2 * ctxUnit.piQ)) -
          Int.floor activeSpinnerSpun.spinsCompleted : ℤ) : ℚ) *
          modMultiplier engSpinnerSpun.mods) ∧
      (moveSpinnerStep ctxUnit 256 192 engSpinnerSpun
        (0, activeSpinnerSpun)).gameState.combo =
        engSpinnerSpun.gameState.combo) ∧
    (judgeEventsFor 0 (spinnerFrameStep engSpinnerDone (0, activeSpinnerDone)) =
      judgeEventsFor 0 engSpinnerDone ++
        [(0,
          if activeSpinnerDone.spinsCompleted ≥ (activeSpinnerDone.requiredSpins : ℚ)
          then HitResult.perfect
          else if activeSpinnerDone.spinsCompleted ≥
            (activeSpinnerDone.requiredSpins : ℚ) * (1/2) then HitResult.great
          else HitResult.miss)]) := by
  refine ⟨?_, ?_, ?_⟩
  · exact c6_spinner_lifecycle.1 bmOneSpinner engSpinnerPending 0 spinner0
      (by with_unfolding_all rfl) (by with_unfolding_all decide)
      (by with_unfolding_all rfl) (by with_unfolding_all decide)
      (by with_unfolding_all decide)
  · exact c6_spinner_lifecycle.2.1 ctxUnit 256 192 engSpinnerSpun
      (0, activeSpinnerSpun) 0 (by with_unfolding_all rfl)
      (by with_unfolding_all decide) (by with_unfolding_all decide)
  · exact c6_spinner_lifecycle.2.2 engSpinnerDone (0, activeSpinnerDone)
      (by with_unfolding_all decide)

end GameEngine
